import Mathlib

/-!
Verification development for the node-cgi-handler repository.

The JavaScript sources (src/cgi.js, src/response.js, src/fastcgi.js) are
shallowly embedded below.  Machine bytes are modelled as `Nat` values
(each in `0..255` for in-range inputs; `Buffer.writeUInt8` /
`writeUInt16BE` are modelled with `% 256` / `% 65536`, which agrees with
Node for all in-range values), byte buffers as `List Nat`, JavaScript
strings as Lean `String`, plain JavaScript objects as insertion-ordered
association lists, and methods that can throw as `Except`-valued
functions.  Socket and stdout sinks are modelled as an accumulated list
of output bytes carried in the state.
-/

set_option maxRecDepth 10000

/-- Low byte of a value, as written by `Buffer.writeUInt8` (in-range values). -/
def u8 (n : Nat) : Nat := n % 256

/-- High byte of a 16-bit big-endian value. -/
def u16hi (n : Nat) : Nat := n % 65536 / 256

/-- Low byte of a 16-bit big-endian value. -/
def u16lo (n : Nat) : Nat := n % 256

/-- The JavaScript exceptions the embedded code can raise.  An uncaught
exception aborts the computation it escapes from; the `Except` error value
records which exception it was. -/
inductive JsErr where
  /-- `Buffer` reads or writes outside the buffer bounds. -/
  | rangeError : JsErr
  /-- calling `.push` on a value that is not an array. -/
  | typeError : JsErr
  /-- `decodeURIComponent` on a malformed escape sequence. -/
  | uriError : JsErr
  /-- an assignment through the inherited `__proto__` setter with an object
  value: this mutates the object's prototype chain instead of creating an
  own property, and the object's behaviour past that point is not
  modelled. -/
  | protoSet : JsErr
deriving Repr, DecidableEq

/-- `buffer.readUInt8(i)`; Node throws a range error when `i` is out of bounds. -/
def readUInt8 (l : List Nat) (i : Nat) : Except JsErr Nat :=
  if h : i < l.length then .ok (l.get ⟨i, h⟩) else .error .rangeError

/-- `buffer.readUInt16BE(i)`; Node throws when fewer than two bytes remain. -/
def readUInt16BE (l : List Nat) (i : Nat) : Except JsErr Nat :=
  if i + 2 ≤ l.length then .ok (l.getD i 0 * 256 + l.getD (i + 1) 0) else .error .rangeError

/-- `buffer.readUInt32BE(i)`; Node throws when fewer than four bytes remain. -/
def readUInt32BE (l : List Nat) (i : Nat) : Except JsErr Nat :=
  if i + 4 ≤ l.length then
    .ok (l.getD i 0 * 16777216 + l.getD (i + 1) 0 * 65536 + l.getD (i + 2) 0 * 256 + l.getD (i + 3) 0)
  else .error .rangeError

/-- UTF-8 encoding of one character (as `Buffer.from(string)` produces). -/
def utf8Encode (c : Char) : List Nat :=
  let n := c.toNat
  if n < 128 then [n]
  else if n < 2048 then [192 + n / 64, 128 + n % 64]
  else if n < 65536 then [224 + n / 4096, 128 + n / 64 % 64, 128 + n % 64]
  else [240 + n / 262144, 128 + n / 4096 % 64, 128 + n / 64 % 64, 128 + n % 64]

/-- UTF-8 bytes of a JavaScript string (`Buffer.from(s)` / `Buffer.byteLength(s)`). -/
def utf8Bytes (s : String) : List Nat := (s.data.map utf8Encode).flatten

/-- Start decoding a UTF-8 sequence at a lead byte, following the WHATWG
decoder used by `buffer.toString('utf8')`: emitted characters plus the
pending state `(needed continuations, accumulated value, lower bound, upper
bound for the next byte)`.  The `E0`/`ED`/`F0`/`F4` leads carry tightened
bounds that exclude overlong encodings and surrogates. -/
def utf8Lead (b : Nat) : List Char × Option (Nat × Nat × Nat × Nat) :=
  if b < 128 then ([Char.ofNat b], none)
  else if 194 ≤ b ∧ b ≤ 223 then ([], some (1, b - 192, 128, 191))
  else if b = 224 then ([], some (2, 0, 160, 191))
  else if b = 237 then ([], some (2, 13, 128, 159))
  else if 224 ≤ b ∧ b ≤ 239 then ([], some (2, b - 224, 128, 191))
  else if b = 240 then ([], some (3, 0, 144, 191))
  else if b = 244 then ([], some (3, 4, 128, 143))
  else if 240 ≤ b ∧ b ≤ 244 then ([], some (3, b - 240, 128, 191))
  else ([Char.ofNat 65533], none)

/-- One step of the WHATWG UTF-8 decoder: consume one byte in the given
state.  A byte that fails its continuation bounds emits U+FFFD for the
maximal subpart consumed so far and is reprocessed as a lead byte. -/
def utf8Step (st : Option (Nat × Nat × Nat × Nat)) (b : Nat) :
    List Char × Option (Nat × Nat × Nat × Nat) :=
  match st with
  | none => utf8Lead b
  | some (need, acc, lo, hi) =>
      if lo ≤ b ∧ b ≤ hi then
        let acc' := acc * 64 + (b - 128)
        if need = 1 then ([Char.ofNat acc'], none) else ([], some (need - 1, acc', 128, 191))
      else
        let p := utf8Lead b
        (Char.ofNat 65533 :: p.1, p.2)

/-- Run the UTF-8 decoder over a byte list; a sequence left incomplete at the
end of input emits a final U+FFFD. -/
def utf8DecodeAux : Option (Nat × Nat × Nat × Nat) → List Nat → List Char
  | none, [] => []
  | some _, [] => [Char.ofNat 65533]
  | st, b :: rest =>
      let p := utf8Step st b
      p.1 ++ utf8DecodeAux p.2 rest

/-- Lossy UTF-8 decoding to a string (`buffer.toString('utf8')`): valid
sequences decode to their scalar values, malformed input decodes to U+FFFD
replacement characters. -/
def utf8DecodeLossy (l : List Nat) : String := String.mk (utf8DecodeAux none l)

/-- Insertion-ordered map lookup (`obj[k]` / `map.get(k)`). -/
def assocGet {κ α : Type} [DecidableEq κ] (m : List (κ × α)) (k : κ) : Option α :=
  match m with
  | [] => none
  | (k₀, v₀) :: rest => if k₀ = k then some v₀ else assocGet rest k

/-- Insertion-ordered map assignment (`obj[k] = v` / `map.set(k, v)`): an
existing key keeps its position, a new key is appended.  This is JavaScript
object semantics for non-integer-like string keys and `Map` semantics for
all keys. -/
def assocSet {κ α : Type} [DecidableEq κ] (m : List (κ × α)) (k : κ) (v : α) : List (κ × α) :=
  match m with
  | [] => [(k, v)]
  | (k₀, v₀) :: rest => if k₀ = k then (k₀, v) :: rest else (k₀, v₀) :: assocSet rest k v

/-- `map.delete(k)` on a map whose keys are unique: remove the first entry
with the given key. -/
def assocDelete {κ α : Type} [DecidableEq κ] (m : List (κ × α)) (k : κ) : List (κ × α) :=
  match m with
  | [] => []
  | (k₀, v₀) :: rest => if k₀ = k then rest else (k₀, v₀) :: assocDelete rest k

/-- Model of JavaScript values passed to `JSON.stringify` (numbers restricted
to integers, which JavaScript serializes as plain decimal digits). -/
inductive Json where
  | null : Json
  | bool : Bool → Json
  | num : Int → Json
  | str : String → Json
  | arr : List Json → Json
  | obj : List (String × Json) → Json

/-- One hexadecimal digit, lowercase, as in JavaScript \u escapes. -/
def hexDigit (d : Nat) : Char :=
  if d < 10 then Char.ofNat (48 + d) else Char.ofNat (87 + d)

/-- Escaping of a single character inside a JSON string literal, following
`JSON.stringify`. -/
def jsonEscapeChar (c : Char) : String :=
  if c = '"' then "\\\""
  else if c = '\\' then "\\\\"
  else if c = '\n' then "\\n"
  else if c = '\r' then "\\r"
  else if c = '\t' then "\\t"
  else if c.toNat = 8 then "\\b"
  else if c.toNat = 12 then "\\f"
  else if c.toNat < 32 then "\\u00" ++ String.mk [hexDigit (c.toNat / 16), hexDigit (c.toNat % 16)]
  else String.mk [c]

/-- Escaping of a whole JSON string body. -/
def jsonEscape (s : String) : String := String.join (s.data.map jsonEscapeChar)

mutual

/-- `JSON.stringify` over the `Json` model. -/
def Json.stringify : Json → String
  | .null => "null"
  | .bool true => "true"
  | .bool false => "false"
  | .num n => n.repr
  | .str s => "\"" ++ jsonEscape s ++ "\""
  | .arr l => "[" ++ Json.stringifyArr l ++ "]"
  | .obj l => "\x7b" ++ Json.stringifyObj l ++ "\x7d"

/-- Comma-joined serialization of a JSON array body. -/
def Json.stringifyArr : List Json → String
  | [] => ""
  | [x] => Json.stringify x
  | x :: y :: rest => Json.stringify x ++ "," ++ Json.stringifyArr (y :: rest)

/-- Comma-joined serialization of a JSON object body. -/
def Json.stringifyObj : List (String × Json) → String
  | [] => ""
  | [(k, v)] => "\"" ++ jsonEscape k ++ "\":" ++ Json.stringify v
  | (k, v) :: y :: rest =>
      "\"" ++ jsonEscape k ++ "\":" ++ Json.stringify v ++ "," ++ Json.stringifyObj (y :: rest)

end

/-! ## Query-string decoding (`parseQueryString` in src/cgi.js) -/

/-- An element of an aggregated query array: a decoded string, or the
`Object.prototype` member that an inherited lookup promoted into the
array. -/
inductive QElem where
  | str : String → QElem
  | protoMember : String → QElem
deriving Repr, DecidableEq

/-- A value recorded under a query key: either a single string or an ordered
array (the only shapes `parseQueryString` produces). -/
inductive QVal where
  | str : String → QVal
  | arr : List QElem → QVal
deriving Repr, DecidableEq

/-- `key.endsWith("[]")`. -/
def endsWithBrackets (s : String) : Bool :=
  match s.data.reverse with
  | ']' :: '[' :: _ => true
  | _ => false

/-- `key.slice(0, -2)`. -/
def dropBrackets (s : String) : String := String.mk ((s.data.reverse.drop 2).reverse)

/-- The property names a plain JavaScript object (`result = {}`) inherits
from `Object.prototype`.  A lookup of one of these keys on an object without
an own binding yields the inherited member (defined and truthy), not
`undefined`. -/
def protoProps : List String :=
  ["constructor", "hasOwnProperty", "isPrototypeOf", "propertyIsEnumerable",
   "toLocaleString", "toString", "valueOf",
   "__defineGetter__", "__defineSetter__", "__lookupGetter__", "__lookupSetter__",
   "__proto__"]

/-- `obj[k] = v` for a plain object with string values: assigning through the
inherited `__proto__` setter with a non-object (string) value is a silent
no-op, every other key creates or overwrites an own property in place. -/
def jsRecordSet (m : List (String × String)) (k v : String) : List (String × String) :=
  if k = "__proto__" then m else assocSet m k v

/-- One iteration of the `for (const [key, value] of params)` loop of
`parseQueryString`, on a plain object that inherits `Object.prototype`:

* bracket key, no own binding: an `Object.prototype` key is inherited and
  truthy, so `result[arrayKey].push(value)` throws a `TypeError` (functions
  and the prototype object have no `push`); any other key starts `[value]`;
* bracket key, own empty string: falsy, reset to `[value]`; own non-empty
  string: truthy non-array, `.push` throws a `TypeError`; own array: append;
* plain key, no own binding: `result[key] !== undefined` is still true for
  an `Object.prototype` key, whose inherited member is promoted into a
  two-element array (for `__proto__` the promoting assignment runs the
  inherited setter and mutates the prototype chain, which the model does not
  follow); any other key records the string directly;
* plain key, own binding: promote a string to a pair, append to an array. -/
def qStep (res : List (String × QVal)) (kv : String × String) :
    Except JsErr (List (String × QVal)) :=
  let k := kv.1
  let v := kv.2
  if endsWithBrackets k then
    let ak := dropBrackets k
    match assocGet res ak with
    | none =>
        if ak ∈ protoProps then .error .typeError
        else .ok (assocSet res ak (.arr [.str v]))
    | some (.str s) =>
        if s = "" then .ok (assocSet res ak (.arr [.str v])) else .error .typeError
    | some (.arr l) => .ok (assocSet res ak (.arr (l ++ [.str v])))
  else
    match assocGet res k with
    | none =>
        if k = "__proto__" then .error .protoSet
        else if k ∈ protoProps then .ok (assocSet res k (.arr [.protoMember k, .str v]))
        else .ok (assocSet res k (.str v))
    | some (.str s) => .ok (assocSet res k (.arr [.str s, .str v]))
    | some (.arr l) => .ok (assocSet res k (.arr (l ++ [.str v])))

/-- The aggregation loop of `parseQueryString` over already-decoded pairs. -/
def aggPairs (pairs : List (String × String)) : Except JsErr (List (String × QVal)) :=
  pairs.foldlM qStep []

/-- Split a character list on a separator character. -/
def splitOnChar (sep : Char) (l : List Char) : List (List Char) :=
  match l with
  | [] => [[]]
  | c :: rest =>
      let r := splitOnChar sep rest
      if c = sep then [] :: r
      else match r with
           | [] => [[c]]
           | seg :: segs => (c :: seg) :: segs

/-- Split a segment at the first `=` into key and value characters. -/
def splitEq (seg : List Char) : List Char × List Char :=
  match seg with
  | [] => ([], [])
  | c :: rest =>
      if c = '=' then ([], rest)
      else
        let p := splitEq rest
        (c :: p.1, p.2)

/-- Hexadecimal value of a character, if it is a hex digit. -/
def hexVal (c : Char) : Option Nat :=
  if '0' ≤ c ∧ c ≤ '9' then some (c.toNat - 48)
  else if 'a' ≤ c ∧ c ≤ 'f' then some (c.toNat - 87)
  else if 'A' ≤ c ∧ c ≤ 'F' then some (c.toNat - 55)
  else none

/-- The byte sequence a `URLSearchParams` component denotes: `+` is a space,
a `%XY` escape is the byte `XY`, a malformed escape and every other
character stand for their own UTF-8 bytes. -/
def urlDecodeBytes : List Char → List Nat
  | [] => []
  | '+' :: rest => 32 :: urlDecodeBytes rest
  | '%' :: h₁ :: h₂ :: rest =>
      match hexVal h₁, hexVal h₂ with
      | some a, some b => (16 * a + b) :: urlDecodeBytes rest
      | _, _ => utf8Encode '%' ++ urlDecodeBytes (h₁ :: h₂ :: rest)
  | c :: rest => utf8Encode c ++ urlDecodeBytes rest

/-- The decoded `(key, value)` pairs `new URLSearchParams(s)` iterates, in
order: an optional leading `?` is stripped, the string is split on `&`,
empty segments are skipped, each segment is split at its first `=`, and both
components are decoded at the byte level and then UTF-8-decoded with
replacement characters for invalid sequences. -/
def queryTokens (s : String) : List (String × String) :=
  let cs := match s.data with
            | '?' :: rest => rest
            | l => l
  ((splitOnChar '&' cs).filter (fun seg => seg ≠ [])).map fun seg =>
    let p := splitEq seg
    (utf8DecodeLossy (urlDecodeBytes p.1), utf8DecodeLossy (urlDecodeBytes p.2))

/-- `parseQueryString` (src/cgi.js): a falsy (empty) query string yields an
empty object, otherwise the `URLSearchParams` pairs are aggregated.  An
uncaught `TypeError` from the aggregation loop propagates to the caller. -/
def parseQueryString (s : String) : Except JsErr (List (String × QVal)) :=
  if s = "" then .ok [] else aggPairs (queryTokens s)

/-! ## CGI environment decoding (src/cgi.js) -/

/-- ASCII lowering, as `toLowerCase` acts on the ASCII range (the only range
the embedded callers feed it). -/
def toLowerStr (s : String) : String := String.mk (s.data.map Char.toLower)

/-- ASCII raising, as `toUpperCase` acts on the ASCII range. -/
def toUpperStr (s : String) : String := String.mk (s.data.map Char.toUpper)

/-- JavaScript string whitespace for `trim` (the common code points). -/
def isJsWhitespace (c : Char) : Bool :=
  c.toNat = 9 ∨ c.toNat = 10 ∨ c.toNat = 11 ∨ c.toNat = 12 ∨ c.toNat = 13 ∨
  c.toNat = 32 ∨ c.toNat = 160 ∨ c.toNat = 65279

/-- `s.trim()`. -/
def trimStr (s : String) : String :=
  String.mk (((s.data.dropWhile isJsWhitespace).reverse.dropWhile isJsWhitespace).reverse)

/-- `a || b` on an optional string: the string when present and non-empty
(truthy), otherwise the default. -/
def jsOr (o : Option String) (d : String) : String :=
  match o with
  | some s => if s = "" then d else s
  | none => d

/-- One token of a `decodeURIComponent` input: a literal character or a
percent-escaped byte. -/
inductive UriTok where
  | lit : Char → UriTok
  | pct : Nat → UriTok

/-- Tokenize a `decodeURIComponent` input; a `%` not followed by two hex
digits is a `URIError`. -/
def uriTokens : List Char → Except JsErr (List UriTok)
  | [] => .ok []
  | '%' :: h₁ :: h₂ :: rest =>
      match hexVal h₁, hexVal h₂ with
      | some a, some b => (uriTokens rest).map (UriTok.pct (16 * a + b) :: ·)
      | _, _ => .error .uriError
  | '%' :: _ => .error .uriError
  | c :: rest => (uriTokens rest).map (UriTok.lit c :: ·)

/-- Decode the token stream: runs of percent-escaped bytes must form valid
UTF-8 sequences (no overlongs, no surrogates), otherwise `URIError`. -/
def uriDecodeToks : List UriTok → Except JsErr (List Char)
  | [] => .ok []
  | .lit c :: rest => (uriDecodeToks rest).map (c :: ·)
  | .pct b :: rest =>
      if b < 128 then (uriDecodeToks rest).map (Char.ofNat b :: ·)
      else if 194 ≤ b ∧ b ≤ 223 then
        match rest with
        | .pct c₁ :: rest₁ =>
            if 128 ≤ c₁ ∧ c₁ ≤ 191 then
              (uriDecodeToks rest₁).map (Char.ofNat ((b - 192) * 64 + (c₁ - 128)) :: ·)
            else .error .uriError
        | _ => .error .uriError
      else if 224 ≤ b ∧ b ≤ 239 then
        match rest with
        | .pct c₁ :: .pct c₂ :: rest₂ =>
            if (if b = 224 then 160 ≤ c₁ ∧ c₁ ≤ 191
                else if b = 237 then 128 ≤ c₁ ∧ c₁ ≤ 159
                else 128 ≤ c₁ ∧ c₁ ≤ 191) ∧ (128 ≤ c₂ ∧ c₂ ≤ 191) then
              (uriDecodeToks rest₂).map
                (Char.ofNat ((b - 224) * 4096 + (c₁ - 128) * 64 + (c₂ - 128)) :: ·)
            else .error .uriError
        | _ => .error .uriError
      else if 240 ≤ b ∧ b ≤ 244 then
        match rest with
        | .pct c₁ :: .pct c₂ :: .pct c₃ :: rest₃ =>
            if (if b = 240 then 144 ≤ c₁ ∧ c₁ ≤ 191
                else if b = 244 then 128 ≤ c₁ ∧ c₁ ≤ 143
                else 128 ≤ c₁ ∧ c₁ ≤ 191) ∧ (128 ≤ c₂ ∧ c₂ ≤ 191) ∧ (128 ≤ c₃ ∧ c₃ ≤ 191) then
              (uriDecodeToks rest₃).map
                (Char.ofNat ((b - 240) * 262144 + (c₁ - 128) * 4096 + (c₂ - 128) * 64 +
                  (c₃ - 128)) :: ·)
            else .error .uriError
        | _ => .error .uriError
      else .error .uriError

/-- `decodeURIComponent`: throws `URIError` on malformed escapes or
percent-escaped bytes that are not valid UTF-8. -/
def decodeURIComponent (s : String) : Except JsErr String := do
  let toks ← uriTokens s.data
  let cs ← uriDecodeToks toks
  .ok (String.mk cs)

/-- The `CGI_ENV_VARS` table of src/cgi.js, in source order. -/
def CGI_ENV_VARS : List (String × String) :=
  [("REQUEST_METHOD", "method"), ("REQUEST_URI", "uri"), ("QUERY_STRING", "queryString"),
   ("SCRIPT_NAME", "scriptName"), ("SCRIPT_FILENAME", "scriptFilename"),
   ("PATH_INFO", "pathInfo"), ("PATH_TRANSLATED", "pathTranslated"),
   ("CONTENT_TYPE", "contentType"), ("CONTENT_LENGTH", "contentLength"),
   ("SERVER_NAME", "serverName"), ("SERVER_PORT", "serverPort"),
   ("SERVER_PROTOCOL", "protocol"), ("SERVER_SOFTWARE", "serverSoftware"),
   ("REMOTE_ADDR", "remoteAddr"), ("REMOTE_PORT", "remotePort"),
   ("REMOTE_HOST", "remoteHost"), ("AUTH_TYPE", "authType"),
   ("REMOTE_USER", "remoteUser"), ("REMOTE_IDENT", "remoteIdent"),
   ("HTTPS", "https"), ("GATEWAY_INTERFACE", "gatewayInterface"),
   ("DOCUMENT_ROOT", "documentRoot")]

/-- `parseHeaders` (src/cgi.js): every `HTTP_*` variable becomes a header
named by the lowercased, hyphenated suffix; truthy `CONTENT_TYPE` and
`CONTENT_LENGTH` are added without the prefix. -/
def parseHeaders (env : List (String × String)) : List (String × String) :=
  let headers := env.foldl (fun acc kv =>
    match kv.1.data with
    | 'H' :: 'T' :: 'T' :: 'P' :: '_' :: suffix =>
        jsRecordSet acc
          (String.mk ((suffix.map Char.toLower).map fun c => if c = '_' then '-' else c)) kv.2
    | _ => acc) []
  let headers := match assocGet env "CONTENT_TYPE" with
    | some s => if s = "" then headers else jsRecordSet headers "content-type" s
    | none => headers
  match assocGet env "CONTENT_LENGTH" with
  | some s => if s = "" then headers else jsRecordSet headers "content-length" s
  | none => headers

/-- `parseCookies` (src/cgi.js): split on `;`, trim, split each pair on every
`=` taking the first part as the name and the rejoined rest as the value,
skip empty names, `decodeURIComponent` the value (an uncaught `URIError`
propagates). -/
def parseCookies (cookieHeader : Option String) : Except JsErr (List (String × String)) :=
  match cookieHeader with
  | none => .ok []
  | some s =>
      if s = "" then .ok []
      else
        (splitOnChar ';' s.data).foldlM (fun acc pair => do
          let trimmed := trimStr (String.mk pair)
          match splitOnChar '=' trimmed.data with
          | [] => .ok acc
          | namePart :: restParts =>
              let name := String.mk namePart
              if name = "" then .ok acc
              else do
                let v ← decodeURIComponent (String.intercalate "=" (restParts.map String.mk))
                .ok (jsRecordSet acc (trimStr name) v)) []

/-- The parsed form of a request body.  A `jsonParsed` value stands for the
result of the `try { JSON.parse(text) } catch { text }` expression of the
source: that branch cannot throw, and no property below inspects the parsed
value, so it is carried symbolically as the input text. -/
inductive BodyVal where
  | null : BodyVal
  | str : String → BodyVal
  | jsonParsed : String → BodyVal
  | form : List (String × QVal) → BodyVal
deriving Repr, DecidableEq

/-- `parseBody` (src/cgi.js): dispatch on the lowercased, semicolon-trimmed
content type.  The form-urlencoded branch runs the query decoder, whose
uncaught `TypeError` propagates. -/
def parseBody (body : List Nat) (contentType : Option String) :
    Except JsErr (List Nat × BodyVal) :=
  if body.length = 0 then .ok (body, .null)
  else
    let bodyStr := utf8DecodeLossy body
    let ctFalsy := match contentType with
      | none => true
      | some s => s = ""
    if ctFalsy then .ok (body, .str bodyStr)
    else
      let ty := trimStr (String.mk ((splitOnChar ';' (toLowerStr (contentType.getD "")).data).headD []))
      if ty = "application/json" then .ok (body, .jsonParsed bodyStr)
      else if ty = "application/x-www-form-urlencoded" then
        (parseQueryString bodyStr).map fun q => (body, .form q)
      else if ty = "text/plain" ∨ ty = "text/html" ∨ ty = "text/xml" ∨ ty = "application/xml" then
        .ok (body, .str bodyStr)
      else .ok (body, .null)

/-- The application-facing request object built by `parseCGIEnv`.  The
duck-typed source object is split into the raw mapped fields (`props`, which
also holds the normalized `method`) and the derived fields. -/
structure CGIRequest where
  props : List (String × String)
  headers : List (String × String)
  query : List (String × QVal)
  cookies : List (String × String)
  url : String
  path : String
  method : String
  rawBody : List Nat
  body : BodyVal
deriving Repr, DecidableEq

/-- `parseCGIEnv` (src/cgi.js): map the recognized variables, extract
headers, decode the query string (`QUERY_STRING || ''`) and cookies — both
can throw, and the exception propagates — then synthesize URL, path and the
uppercased method. -/
def parseCGIEnv (env : List (String × String)) : Except JsErr CGIRequest := do
  let props := CGI_ENV_VARS.foldl (fun acc kv =>
    match assocGet env kv.1 with
    | some v => assocSet acc kv.2 v
    | none => acc) []
  let headers := parseHeaders env
  let query ← parseQueryString (jsOr (assocGet props "queryString") "")
  let cookies ← parseCookies (assocGet headers "cookie")
  let protocol := if assocGet props "https" = some "on" then "https" else "http"
  let host := jsOr (assocGet headers "host") (jsOr (assocGet props "serverName") "localhost")
  let path₀ := jsOr (assocGet props "uri") (jsOr (assocGet props "scriptName") "/")
  let method := toUpperStr (jsOr (assocGet props "method") "GET")
  .ok { props := assocSet props "method" method
        headers := headers
        query := query
        cookies := cookies
        url := protocol ++ "://" ++ host ++ path₀
        path := String.mk ((splitOnChar '?' path₀.data).headD [])
        method := method
        rawBody := []
        body := .null }

/-! ## CGI response writer (`Response` in src/response.js) -/

/-- A header value as stored on the response object: a string, a number
(`json` stores `Buffer.byteLength(body)`), or an array of strings. -/
inductive HVal where
  | str : String → HVal
  | num : Nat → HVal
  | arr : List String → HVal
deriving Repr, DecidableEq

/-- JavaScript truthiness of a stored header value (arrays are always truthy). -/
def hvTruthy : HVal → Bool
  | .str s => s ≠ ""
  | .num n => n ≠ 0
  | .arr _ => true

/-- A chunk passed to `write` / `end`: a string or a byte buffer. -/
inductive Chunk where
  | str : String → Chunk
  | buf : List Nat → Chunk
deriving Repr, DecidableEq

/-- The bytes a chunk contributes to the output. -/
def Chunk.bytes : Chunk → List Nat
  | .str s => utf8Bytes s
  | .buf b => b

/-- The `STATUS_MESSAGES` table of src/response.js (with the `|| 'Unknown'`
fallback). -/
def cgiStatusMessage (c : Nat) : String :=
  if c = 200 then "OK" else if c = 201 then "Created" else if c = 204 then "No Content"
  else if c = 301 then "Moved Permanently" else if c = 302 then "Found"
  else if c = 304 then "Not Modified" else if c = 400 then "Bad Request"
  else if c = 401 then "Unauthorized" else if c = 403 then "Forbidden"
  else if c = 404 then "Not Found" else if c = 405 then "Method Not Allowed"
  else if c = 500 then "Internal Server Error" else if c = 502 then "Bad Gateway"
  else if c = 503 then "Service Unavailable" else "Unknown"

/-- The shorthand content-type table of `Response.type` (with the
`|| contentType` verbatim fallback). -/
def cgiContentTypeFor (ct : String) : String :=
  if ct = "html" then "text/html; charset=utf-8"
  else if ct = "text" then "text/plain; charset=utf-8"
  else if ct = "json" then "application/json; charset=utf-8"
  else if ct = "xml" then "application/xml; charset=utf-8"
  else if ct = "css" then "text/css; charset=utf-8"
  else if ct = "js" then "application/javascript; charset=utf-8"
  else ct

/-- Options accepted by `Response.cookie` (an `expires` date is carried as
its already-formatted `toUTCString()` rendering). -/
structure CookieOptions where
  maxAge : Option Nat := none
  expires : Option String := none
  path : Option String := none
  domain : Option String := none
  secure : Bool := false
  httpOnly : Bool := false
  sameSite : Option String := none
deriving Repr, DecidableEq

/-- `encodeURIComponent`: characters `A-Z a-z 0-9 - _ . ! ~ * ' ( )` are kept,
everything else is percent-encoded from its UTF-8 bytes, uppercase hex. -/
def encodeURIComponent (s : String) : String :=
  let keep : Char → Bool := fun c =>
    (65 ≤ c.toNat ∧ c.toNat ≤ 90) ∨ (97 ≤ c.toNat ∧ c.toNat ≤ 122) ∨
    (48 ≤ c.toNat ∧ c.toNat ≤ 57) ∨ c.toNat ∈ [45, 95, 46, 33, 126, 42, 39, 40, 41]
  let hexUp : Nat → Char := fun d => if d < 10 then Char.ofNat (48 + d) else Char.ofNat (55 + d)
  String.join (s.data.map fun c =>
    if keep c then String.mk [c]
    else String.join ((utf8Encode c).map fun b => String.mk ['%', hexUp (b / 16), hexUp (b % 16)]))

/-- The cookie string built by `Response.cookie`.  Every option gate is a
truthiness test: a present `maxAge` of `0` and present-but-empty `path`,
`domain` and `sameSite` strings are falsy and skipped; an `expires` date is
an object and hence truthy whenever present. -/
def buildCookieString (name value : String) (o : CookieOptions) : String :=
  let s := encodeURIComponent name ++ "=" ++ encodeURIComponent value
  let s := match o.maxAge with
    | some n => if n = 0 then s else s ++ "; Max-Age=" ++ Nat.repr n
    | none => s
  let s := match o.expires with | some e => s ++ "; Expires=" ++ e | none => s
  let s := match o.path with
    | some p => if p = "" then s else s ++ "; Path=" ++ p
    | none => s
  let s := match o.domain with
    | some d => if d = "" then s else s ++ "; Domain=" ++ d
    | none => s
  let s := if o.secure then s ++ "; Secure" else s
  let s := if o.httpOnly then s ++ "; HttpOnly" else s
  match o.sameSite with
  | some v => if v = "" then s else s ++ "; SameSite=" ++ v
  | none => s

/-- The state of a CGI `Response`; `out` is everything written to stdout. -/
structure Response where
  statusCode : Nat
  headers : List (String × HVal)
  headersSent : Bool
  finished : Bool
  cookies : List String
  out : List Nat
deriving Repr, DecidableEq

/-- The `Response` constructor. -/
def Response.new : Response :=
  { statusCode := 200
    headers := [("Content-Type", .str "text/html; charset=utf-8")]
    headersSent := false
    finished := false
    cookies := []
    out := [] }

/-- `Response.status`; throws once headers are sent. -/
def Response.status (code : Nat) (r : Response) : Except String Response :=
  if r.headersSent then .error "Cannot set status after headers sent"
  else .ok { r with statusCode := code }

/-- `Response.set` (single name/value form; the object form of the source
assigns each pair the same way). -/
def Response.set (name : String) (value : HVal) (r : Response) : Except String Response :=
  if r.headersSent then .error "Cannot set headers after they are sent"
  else .ok { r with headers := assocSet r.headers name value }

/-- `Response.type`. -/
def Response.type (ct : String) (r : Response) : Except String Response :=
  r.set "Content-Type" (.str (cgiContentTypeFor ct))

/-- `Response.cookie`. -/
def Response.cookie (name value : String) (o : CookieOptions) (r : Response) :
    Except String Response :=
  if r.headersSent then .error "Cannot set cookie after headers sent"
  else .ok { r with cookies := r.cookies ++ [buildCookieString name value o] }

/-- The header lines of `Response._writeHeaders`: one line per value, array
values emitting one line per element. -/
def renderHeaderLines (headers : List (String × HVal)) : String :=
  String.join (headers.map fun p =>
    match p.2 with
    | .str s => p.1 ++ ": " ++ s ++ "\r\n"
    | .num n => p.1 ++ ": " ++ Nat.repr n ++ "\r\n"
    | .arr l => String.join (l.map fun v => p.1 ++ ": " ++ v ++ "\r\n"))

/-- The cookie lines of the header block. -/
def renderCookieLines (cookies : List String) : String :=
  String.join (cookies.map fun c => "Set-Cookie: " ++ c ++ "\r\n")

/-- The full CGI header block written by `Response._writeHeaders`. -/
def cgiHeaderBlock (r : Response) : String :=
  "Status: " ++ Nat.repr r.statusCode ++ " " ++ cgiStatusMessage r.statusCode ++ "\r\n" ++
  renderHeaderLines r.headers ++ renderCookieLines r.cookies ++ "\r\n"

/-- `Response._writeHeaders`: a no-op once sent, otherwise the serialized
header block goes to stdout. -/
def Response.writeHeaders (r : Response) : Response :=
  if r.headersSent then r
  else { r with out := r.out ++ utf8Bytes (cgiHeaderBlock r), headersSent := true }

/-- `Response.write`; throws after `end`, serializes headers on first use. -/
def Response.write (c : Chunk) (r : Response) : Except String Response :=
  if r.finished then .error "Cannot write after response finished"
  else
    let r₁ := r.writeHeaders
    .ok { r₁ with out := r₁.out ++ c.bytes }

/-- `Response.end` (named `endR`, `end` being a Lean keyword): idempotent,
writes the optional final chunk, ensures headers are out, marks finished. -/
def Response.endR (d : Option Chunk) (r : Response) : Except String Response :=
  if r.finished then .ok r
  else
    match d with
    | some c => do
        let r₁ ← r.write c
        .ok { r₁ with finished := true }
    | none => .ok { r.writeHeaders with finished := true }

/-- `Response.json`: content type `json`, `Content-Length` from the byte
length of the serialized body, then `end(body)`. -/
def Response.json (v : Json) (r : Response) : Except String Response := do
  let r₁ ← r.type "json"
  let body := Json.stringify v
  let r₂ ← r₁.set "Content-Length" (.num (utf8Bytes body).length)
  r₂.endR (some (.str body))

/-- Falsiness of `this._headers['Content-Type']` as tested by `Response.send`. -/
def ctFalsy (headers : List (String × HVal)) : Bool :=
  match assocGet headers "Content-Type" with
  | none => true
  | some v => !hvTruthy v

/-- A value passed to `Response.send`, split by the runtime-type dispatch the
source performs. -/
inductive SendBody where
  | nul : SendBody
  | str : String → SendBody
  | buf : List Nat → SendBody
  | obj : Json → SendBody

/-- `Response.send`. -/
def Response.send (b : SendBody) (r : Response) : Except String Response :=
  match b with
  | .nul => r.endR none
  | .str s =>
      if ctFalsy r.headers then do
        let r₁ ← r.type "html"
        r₁.endR (some (.str s))
      else r.endR (some (.str s))
  | .buf bytes =>
      if ctFalsy r.headers then do
        let r₁ ← r.type "application/octet-stream"
        r₁.endR (some (.buf bytes))
      else r.endR (some (.buf bytes))
  | .obj j => r.json j

/-- `Response.redirect`. -/
def Response.redirect (url : String) (code : Nat) (r : Response) : Except String Response := do
  let r₁ ← r.status code
  let r₂ ← r₁.set "Location" (.str url)
  r₂.endR none

/-! ## FastCGI frame codec (src/fastcgi.js) -/

/-- A decoded FastCGI record header. -/
structure FCGIHeader where
  version : Nat
  type : Nat
  requestId : Nat
  contentLength : Nat
  paddingLength : Nat
  reserved : Nat
deriving Repr, DecidableEq

/-- `parseHeader`: `null` when fewer than 8 bytes are present, otherwise the
decoded fixed header (big-endian 16-bit fields).  The version byte is read
but not validated. -/
def parseHeader (buffer : List Nat) : Option FCGIHeader :=
  if buffer.length < 8 then none
  else some
    { version := buffer.getD 0 0
      type := buffer.getD 1 0
      requestId := buffer.getD 2 0 * 256 + buffer.getD 3 0
      contentLength := buffer.getD 4 0 * 256 + buffer.getD 5 0
      paddingLength := buffer.getD 6 0
      reserved := buffer.getD 7 0 }

/-- `buildHeader`: the 8 header bytes, version fixed at 1. -/
def buildHeader (type requestId contentLength : Nat) (paddingLength : Nat := 0) : List Nat :=
  [1, u8 type, u16hi requestId, u16lo requestId,
   u16hi contentLength, u16lo contentLength, u8 paddingLength, 0]

/-- Big-endian 32-bit encoding (`writeUInt32BE`). -/
def u32be (n : Nat) : List Nat :=
  [n % 4294967296 / 16777216, n % 16777216 / 65536, n % 65536 / 256, n % 256]

/-- `buildEndRequest`: an `END_REQUEST` record (type 3) with an 8-byte body of
app status (32-bit BE), protocol status, and three reserved zero bytes. -/
def buildEndRequest (requestId : Nat) (appStatus : Nat := 0) (protocolStatus : Nat := 0) :
    List Nat :=
  buildHeader 3 requestId 8 ++ u32be appStatus ++ [u8 protocolStatus, 0, 0, 0]

/-- `buildStreamRecord`: chunk the payload at 65,535 bytes, each chunk framed
with padding `(8 - len % 8) % 8` of zero bytes; an empty payload produces no
records. -/
def buildStreamRecord (type requestId : Nat) (data : List Nat) : List Nat :=
  if h : data.length = 0 then []
  else
    let chunk := data.take 65535
    let paddingLength := (8 - chunk.length % 8) % 8
    buildHeader type requestId chunk.length paddingLength ++ chunk ++
      List.replicate paddingLength 0 ++ buildStreamRecord type requestId (data.drop 65535)
termination_by data.length
decreasing_by simp [List.length_drop]; omega

/-- The pair-reading loop of `parseNameValuePairs`, yielding the decoded
`(name, value)` strings in read order.  Length fields are 1 byte when below
128, else 4 bytes big-endian with the top bit masked off.  Reading a length
field past the end of the buffer is a Node range error, modelled as
`.error .rangeError`; the name/value slices themselves clamp, and
`toString('utf8')` decodes them with replacement characters. -/
def parseNVPLoop : Nat → List Nat → Except JsErr (List (String × String))
  | _, [] => .ok []
  | 0, _ :: _ => .ok []
  | fuel + 1, b₀ :: rest =>
    if b₀ < 128 then
      match rest with
      | [] => .error .rangeError
      | b₁ :: rest₁ =>
        if b₁ < 128 then
          (parseNVPLoop fuel ((rest₁.drop b₀).drop b₁)).map fun tail =>
            (utf8DecodeLossy (rest₁.take b₀), utf8DecodeLossy ((rest₁.drop b₀).take b₁)) :: tail
        else
          match rest₁ with
          | c₁ :: c₂ :: c₃ :: rest₂ =>
            let valueLength := (b₁ * 16777216 + c₁ * 65536 + c₂ * 256 + c₃) % 2147483648
            (parseNVPLoop fuel ((rest₂.drop b₀).drop valueLength)).map fun tail =>
              (utf8DecodeLossy (rest₂.take b₀),
                utf8DecodeLossy ((rest₂.drop b₀).take valueLength)) :: tail
          | _ => .error .rangeError
    else
      match rest with
      | a₁ :: a₂ :: a₃ :: rest₁ =>
        let nameLength := (b₀ * 16777216 + a₁ * 65536 + a₂ * 256 + a₃) % 2147483648
        match rest₁ with
        | [] => .error .rangeError
        | b₁ :: rest₂ =>
          if b₁ < 128 then
            (parseNVPLoop fuel ((rest₂.drop nameLength).drop b₁)).map fun tail =>
              (utf8DecodeLossy (rest₂.take nameLength),
                utf8DecodeLossy ((rest₂.drop nameLength).take b₁)) :: tail
          else
            match rest₂ with
            | c₁ :: c₂ :: c₃ :: rest₃ =>
              let valueLength := (b₁ * 16777216 + c₁ * 65536 + c₂ * 256 + c₃) % 2147483648
              (parseNVPLoop fuel ((rest₃.drop nameLength).drop valueLength)).map fun tail =>
                (utf8DecodeLossy (rest₃.take nameLength),
                  utf8DecodeLossy ((rest₃.drop nameLength).take valueLength)) :: tail
            | _ => .error .rangeError
      | _ => .error .rangeError

/-- The loop run to exhaustion: every iteration strictly shrinks the buffer
(at least the leading length byte is consumed), so iterating `length` times
is exhaustive and the zero-iterations-left case above is never reached from
here. -/
def parseNameValuePairsAux (buffer : List Nat) : Except JsErr (List (String × String)) :=
  parseNVPLoop buffer.length buffer

/-- `parseNameValuePairs`: the pairs are assigned in order onto the plain
`params = \x7b\x7d` object (a `__proto__` name would fall into the inherited
setter and leave no own property). -/
def parseNameValuePairs (buffer : List Nat) : Except JsErr (List (String × String)) :=
  (parseNameValuePairsAux buffer).map fun ps =>
    ps.foldl (fun acc p => jsRecordSet acc p.1 p.2) []

/-! ## FastCGI request assembly and server machine (src/fastcgi.js) -/

/-- `FCGIRequest`: per-request accumulation state. -/
structure FCGIRequest where
  requestId : Nat
  role : Nat
  keepConn : Bool
  params : List (String × String)
  paramsComplete : Bool
  stdin : List (List Nat)
  stdinComplete : Bool
  data : List (List Nat)
  dataComplete : Bool
deriving Repr, DecidableEq

/-- The `FCGIRequest` constructor. -/
def FCGIRequest.new (requestId role : Nat) (keepConn : Bool) : FCGIRequest :=
  { requestId := requestId, role := role, keepConn := keepConn
    params := [], paramsComplete := false
    stdin := [], stdinComplete := false
    data := [], dataComplete := false }

/-- `FCGIRequest.addParams`: a zero-length buffer closes the stream, anything
else is decoded and `Object.assign`-merged into the parameter map.  A decode
failure is the exception the source lets propagate. -/
def FCGIRequest.addParams (content : List Nat) (r : FCGIRequest) : Except JsErr FCGIRequest :=
  if content.length = 0 then .ok { r with paramsComplete := true }
  else
    (parseNameValuePairs content).map fun ps =>
      { r with params := ps.foldl (fun acc p => jsRecordSet acc p.1 p.2) r.params }

/-- `FCGIRequest.addStdin`: a zero-length buffer closes the stream, anything
else is appended. -/
def FCGIRequest.addStdin (content : List Nat) (r : FCGIRequest) : FCGIRequest :=
  if content.length = 0 then { r with stdinComplete := true }
  else { r with stdin := r.stdin ++ [content] }

/-- `FCGIRequest.getStdinBuffer`. -/
def FCGIRequest.getStdinBuffer (r : FCGIRequest) : List Nat := r.stdin.flatten

/-- `FCGIRequest.isReady`. -/
def FCGIRequest.isReady (r : FCGIRequest) : Bool := r.paramsComplete && r.stdinComplete

/-- The `STATUS_MESSAGES` table local to `FCGIResponse._buildHeaders`. -/
def fcgiStatusMessage (c : Nat) : String :=
  if c = 200 then "OK" else if c = 201 then "Created" else if c = 204 then "No Content"
  else if c = 301 then "Moved Permanently" else if c = 302 then "Found"
  else if c = 304 then "Not Modified" else if c = 400 then "Bad Request"
  else if c = 401 then "Unauthorized" else if c = 403 then "Forbidden"
  else if c = 404 then "Not Found" else if c = 500 then "Internal Server Error"
  else "Unknown"

/-- The shorthand table of `FCGIResponse.type` (html, text, json only). -/
def fcgiContentTypeFor (ct : String) : String :=
  if ct = "html" then "text/html; charset=utf-8"
  else if ct = "text" then "text/plain; charset=utf-8"
  else if ct = "json" then "application/json; charset=utf-8"
  else ct

/-- A header value interpolated into a template string (`${value}`); arrays
render comma-joined. -/
def hvTemplate : HVal → String
  | .str s => s
  | .num n => Nat.repr n
  | .arr l => String.intercalate "," l

/-- The state of an `FCGIResponse`.  `socketOut` collects every byte the
response writes to its socket; `buffer` is the in-memory chunk list. -/
structure FCGIResponse where
  requestId : Nat
  statusCode : Nat
  headers : List (String × HVal)
  headersSent : Bool
  finished : Bool
  cookies : List String
  buffer : List (List Nat)
  socketOut : List Nat
deriving Repr, DecidableEq

/-- The `FCGIResponse` constructor. -/
def FCGIResponse.new (requestId : Nat) : FCGIResponse :=
  { requestId := requestId
    statusCode := 200
    headers := [("Content-Type", .str "text/html; charset=utf-8")]
    headersSent := false
    finished := false
    cookies := []
    buffer := []
    socketOut := [] }

/-- `FCGIResponse.status` (no headers-sent check in this variant). -/
def FCGIResponse.status (code : Nat) (r : FCGIResponse) : FCGIResponse :=
  { r with statusCode := code }

/-- `FCGIResponse.set` (single name/value form). -/
def FCGIResponse.set (name : String) (value : HVal) (r : FCGIResponse) : FCGIResponse :=
  { r with headers := assocSet r.headers name value }

/-- `FCGIResponse.type`. -/
def FCGIResponse.type (ct : String) (r : FCGIResponse) : FCGIResponse :=
  r.set "Content-Type" (.str (fcgiContentTypeFor ct))

/-- The cookie string built by `FCGIResponse.cookie`: the same truthiness
gates as the CGI variant, but this variant has no `expires` clause at all. -/
def buildFcgiCookieString (name value : String) (o : CookieOptions) : String :=
  let s := encodeURIComponent name ++ "=" ++ encodeURIComponent value
  let s := match o.maxAge with
    | some n => if n = 0 then s else s ++ "; Max-Age=" ++ Nat.repr n
    | none => s
  let s := match o.path with
    | some p => if p = "" then s else s ++ "; Path=" ++ p
    | none => s
  let s := match o.domain with
    | some d => if d = "" then s else s ++ "; Domain=" ++ d
    | none => s
  let s := if o.secure then s ++ "; Secure" else s
  let s := if o.httpOnly then s ++ "; HttpOnly" else s
  match o.sameSite with
  | some v => if v = "" then s else s ++ "; SameSite=" ++ v
  | none => s

/-- `FCGIResponse.cookie` (no headers-sent check in this variant). -/
def FCGIResponse.cookie (name value : String) (o : CookieOptions) (r : FCGIResponse) :
    FCGIResponse :=
  { r with cookies := r.cookies ++ [buildFcgiCookieString name value o] }

/-- The header block built by `FCGIResponse._buildHeaders`. -/
def fcgiHeaderBlock (r : FCGIResponse) : String :=
  "Status: " ++ Nat.repr r.statusCode ++ " " ++ fcgiStatusMessage r.statusCode ++ "\r\n" ++
  String.join (r.headers.map fun p => p.1 ++ ": " ++ hvTemplate p.2 ++ "\r\n") ++
  renderCookieLines r.cookies ++ "\r\n"

/-- `FCGIResponse.write`: pushes the serialized header block into the buffer
on first use, then the chunk.  It never touches the socket and has no
finished-check. -/
def FCGIResponse.write (c : Chunk) (r : FCGIResponse) : FCGIResponse :=
  let r₁ :=
    if r.headersSent then r
    else { r with buffer := r.buffer ++ [utf8Bytes (fcgiHeaderBlock r)], headersSent := true }
  { r₁ with buffer := r₁.buffer ++ [c.bytes] }

/-- The buffered state just before `FCGIResponse.end` flushes: the optional
final chunk is written, else headers are ensured. -/
def FCGIResponse.preEnd (d : Option Chunk) (r : FCGIResponse) : FCGIResponse :=
  match d with
  | some c => r.write c
  | none =>
      if r.headersSent then r
      else { r with buffer := r.buffer ++ [utf8Bytes (fcgiHeaderBlock r)], headersSent := true }

/-- `FCGIResponse.end` (named `endR`): idempotent; flushes the concatenated
buffer as `STDOUT` records, then an empty `STDOUT` record, then an
`END_REQUEST` record with app status 0 and protocol status 0. -/
def FCGIResponse.endR (d : Option Chunk) (r : FCGIResponse) : FCGIResponse :=
  if r.finished then r
  else
    let r₁ := r.preEnd d
    let fullBody := r₁.buffer.flatten
    let stdoutRecords := if fullBody.length > 0 then buildStreamRecord 6 r.requestId fullBody else []
    { r₁ with
        socketOut := r₁.socketOut ++ stdoutRecords ++ buildHeader 6 r.requestId 0 ++
          buildEndRequest r.requestId 0 0
        finished := true }

/-- `FCGIResponse.json`: sets content type `json` and ends with the
serialized body.  No `Content-Length` header is set in this variant. -/
def FCGIResponse.json (v : Json) (r : FCGIResponse) : FCGIResponse :=
  (r.type "json").endR (some (.str (Json.stringify v)))

/-- `FCGIResponse.send`: objects (other than buffers) go through `json`,
everything else through `end`. -/
def FCGIResponse.send (b : SendBody) (r : FCGIResponse) : FCGIResponse :=
  match b with
  | .obj j => r.json j
  | .nul => r.endR none
  | .str s => r.endR (some (.str s))
  | .buf bs => r.endR (some (.buf bs))

/-- `FCGIResponse.redirect`. -/
def FCGIResponse.redirect (url : String) (code : Nat) (r : FCGIResponse) : FCGIResponse :=
  ((r.status code).set "Location" (.str url)).endR none

/-- The `maxConns` / `maxReqs` options of `FastCGIServer`. -/
structure ServerOptions where
  maxConns : Nat := 100
  maxReqs : Nat := 100
deriving Repr, DecidableEq

/-- One inbound record as handed to `_processRecord`: the header's type and
request id plus the content slice. -/
structure FCGIRecord where
  type : Nat
  requestId : Nat
  content : List Nat
deriving Repr, DecidableEq

/-- The per-connection state of `_handleConnection`: the `requests` map, the
bytes written to the socket (`out`), and the ordered list of request ids for
which a "request" event has been emitted (`events`). -/
structure ConnState where
  requests : List (Nat × FCGIRequest)
  out : List Nat
  events : List Nat
deriving Repr, DecidableEq

/-- The connection state at accept time. -/
def initConnState : ConnState := { requests := [], out := [], events := [] }

/-- The request object `_tryHandleRequest` derives for the handler once a
request is ready: `parseCGIEnv` on the accumulated parameters, then — only
when stdin is non-empty — `parseBody` on the stdin buffer and the mapped
`contentType` property, the results overwriting `rawBody` / `body`.  An
exception from either parser propagates. -/
def buildRequest (fr : FCGIRequest) : Except JsErr CGIRequest := do
  let request ← parseCGIEnv fr.params
  let stdinBuffer := fr.getStdinBuffer
  if stdinBuffer.length > 0 then
    (parseBody stdinBuffer (assocGet request.props "contentType")).map fun p =>
      { request with rawBody := p.1, body := p.2 }
  else
    .ok { request with rawBody := [], body := .null }

/-- `_tryHandleRequest`: when the request is present and ready, it is removed
from the map, the application-facing request is derived (`buildRequest`,
whose exception propagates before the event is observed) and the "request"
event is emitted (recorded by appending the request id to `events`; the
fresh `FCGIResponse` handed to the handler does not change the connection
state). -/
def tryHandleRequest (s : ConnState) (requestId : Nat) : Except JsErr ConnState :=
  match assocGet s.requests requestId with
  | none => .ok s
  | some req =>
      if req.isReady then
        (buildRequest req).map fun _ =>
          { s with requests := assocDelete s.requests requestId, events := s.events ++ [requestId] }
      else .ok s

/-- `_buildGetValuesResult`: echo the recognized capability keys (the `in`
test also sees inherited names, but none of the three probed keys lies on
`Object.prototype`).  The `writeUInt8` length fields throw a `RangeError`
when a length exceeds 255; the result record always carries request id 0. -/
def buildGetValuesResult (opts : ServerOptions) (_requestId : Nat) (content : List Nat) :
    Except JsErr (List Nat) := do
  let params ← parseNameValuePairs content
  let results : List (String × String) :=
    (if (assocGet params "FCGI_MAX_CONNS").isSome then
      [("FCGI_MAX_CONNS", Nat.repr opts.maxConns)] else []) ++
    (if (assocGet params "FCGI_MAX_REQS").isSome then
      [("FCGI_MAX_REQS", Nat.repr opts.maxReqs)] else []) ++
    (if (assocGet params "FCGI_MPXS_CONNS").isSome then
      [("FCGI_MPXS_CONNS", "1")] else [])
  let enc ← results.foldlM (fun acc p =>
    let nb := utf8Bytes p.1
    let vb := utf8Bytes p.2
    if nb.length ≤ 255 ∧ vb.length ≤ 255 then
      .ok (acc ++ [nb.length, vb.length] ++ nb ++ vb)
    else .error .rangeError) ([] : List Nat)
  .ok (buildHeader 10 0 enc.length ++ enc)

/-- `_processRecord`: the switch over record types.  `BEGIN_REQUEST` (1)
creates a map entry, `PARAMS` (4) and `STDIN` (5) feed the assembler and then
try to dispatch, `ABORT_REQUEST` (2) only deletes the map entry,
`GET_VALUES` (9) writes a result record, and unknown types fall through. -/
def processRecord (opts : ServerOptions) (s : ConnState) (r : FCGIRecord) :
    Except JsErr ConnState :=
  if r.type = 1 then do
    let role ← readUInt16BE r.content 0
    let flags ← readUInt8 r.content 2
    let req := FCGIRequest.new r.requestId role (flags % 2 == 1)
    .ok { s with requests := assocSet s.requests r.requestId req }
  else if r.type = 4 then
    match assocGet s.requests r.requestId with
    | some req => do
        let req' ← req.addParams r.content
        tryHandleRequest { s with requests := assocSet s.requests r.requestId req' } r.requestId
    | none => tryHandleRequest s r.requestId
  else if r.type = 5 then
    match assocGet s.requests r.requestId with
    | some req =>
        tryHandleRequest
          { s with requests := assocSet s.requests r.requestId (req.addStdin r.content) }
          r.requestId
    | none => tryHandleRequest s r.requestId
  else if r.type = 2 then
    .ok { s with requests := assocDelete s.requests r.requestId }
  else if r.type = 9 then
    (buildGetValuesResult opts r.requestId r.content).map fun response =>
      { s with out := s.out ++ response }
  else .ok s

/-- Processing a whole sequence of already-framed records in order. -/
def processRecords (opts : ServerOptions) (s : ConnState) (recs : List FCGIRecord) :
    Except JsErr ConnState :=
  recs.foldlM (processRecord opts) s

/-- The record-extraction loop of the `data` handler in `_handleConnection`:
while at least a full header and its content and padding are buffered, slice
the record off the head and process it; return the final state and the
remaining unframed bytes. -/
def feedRecords (opts : ServerOptions) (s : ConnState) (buffer : List Nat) :
    Except JsErr (ConnState × List Nat) :=
  if _h : buffer.length < 8 then .ok (s, buffer)
  else
    match parseHeader buffer with
    | none => .ok (s, buffer)
    | some hd =>
      let totalLength := 8 + hd.contentLength + hd.paddingLength
      if buffer.length < totalLength then .ok (s, buffer)
      else
        (processRecord opts s ⟨hd.type, hd.requestId, (buffer.drop 8).take hd.contentLength⟩).bind
          fun s' => feedRecords opts s' (buffer.drop totalLength)
termination_by buffer.length
decreasing_by simp [List.length_drop]; omega

deriving instance DecidableEq for Except

/-- The chunk decomposition `buildStreamRecord` walks: maximal 65,535-byte
slices in order. -/
def chunksOf (data : List Nat) : List (List Nat) :=
  if _h : data.length = 0 then [] else data.take 65535 :: chunksOf (data.drop 65535)
termination_by data.length
decreasing_by simp [List.length_drop]; omega

/-! ## Predicates used to state the stream-dispatch claims -/

/-- The stream contains a `BEGIN_REQUEST` record for this id. -/
def hasBegin (id : Nat) (recs : List FCGIRecord) : Prop :=
  ∃ r ∈ recs, r.type = 1 ∧ r.requestId = id

/-- The stream contains a zero-length `PARAMS` record for this id. -/
def hasParamsEnd (id : Nat) (recs : List FCGIRecord) : Prop :=
  ∃ r ∈ recs, r.type = 4 ∧ r.requestId = id ∧ r.content = []

/-- The stream contains a zero-length `STDIN` record for this id. -/
def hasStdinEnd (id : Nat) (recs : List FCGIRecord) : Prop :=
  ∃ r ∈ recs, r.type = 5 ∧ r.requestId = id ∧ r.content = []

/-- A well-formed inbound stream relative to the set of already-begun ids:
only `BEGIN_REQUEST` / `PARAMS` / `STDIN` records, each `BEGIN_REQUEST`
introduces a fresh id and carries a readable role/flags body, and `PARAMS` /
`STDIN` records only follow their id's `BEGIN_REQUEST`, with decodable
parameter payloads. -/
def WFStream (begun : List Nat) : List FCGIRecord → Prop
  | [] => True
  | r :: rest =>
    if r.type = 1 then
      r.requestId ∉ begun ∧ 3 ≤ r.content.length ∧ WFStream (r.requestId :: begun) rest
    else if r.type = 4 then
      r.requestId ∈ begun ∧ (r.content = [] ∨ ∃ ps, parseNameValuePairs r.content = .ok ps) ∧
        WFStream begun rest
    else if r.type = 5 then
      r.requestId ∈ begun ∧ WFStream begun rest
    else False

/-- The map entry for this id exists with its params stream closed. -/
def pDone (s : ConnState) (id : Nat) : Prop :=
  ∃ r, assocGet s.requests id = some r ∧ r.paramsComplete = true

/-- The map entry for this id exists with its stdin stream closed. -/
def sDone (s : ConnState) (id : Nat) : Prop :=
  ∃ r, assocGet s.requests id = some r ∧ r.stdinComplete = true

/-- The connection-state invariant maintained by record processing: events
are distinct, dispatched ids have no map entry, the map keys are distinct,
an id was begun exactly when it was dispatched or is pending, and no pending
entry has both completion flags set. -/
def ConnInv (begun : List Nat) (s : ConnState) : Prop :=
  s.events.Nodup ∧
  (s.requests.map Prod.fst).Nodup ∧
  (∀ id, id ∈ s.events → assocGet s.requests id = none) ∧
  (∀ id, id ∈ begun ↔ (id ∈ s.events ∨ (assocGet s.requests id).isSome)) ∧
  (∀ id r, assocGet s.requests id = some r → ¬(r.paramsComplete = true ∧ r.stdinComplete = true))

/-- A concrete single-request stream: `BEGIN_REQUEST` for id 1 (responder
role, no flags), a `PARAMS` record carrying the single pair
`QUERY_STRING = "a=1&a[]=2"` (name length 12, value length 9, then the
ASCII bytes of name and value), the zero-length `PARAMS` terminator and the
zero-length `STDIN` terminator. -/
def crashStream : List FCGIRecord :=
  [⟨1, 1, [0, 1, 0]⟩,
   ⟨4, 1, [12, 9, 81, 85, 69, 82, 89, 95, 83, 84, 82, 73, 78, 71,
           97, 61, 49, 38, 97, 91, 93, 61, 50]⟩,
   ⟨4, 1, []⟩,
   ⟨5, 1, []⟩]

/-! ## Association-list lemmas -/

variable {κ α : Type} [DecidableEq κ]

theorem assocGet_set_self (m : List (κ × α)) (k : κ) (v : α) :
    assocGet (assocSet m k v) k = some v := by
  induction m with
  | nil => simp [assocSet, assocGet]
  | cons p rest ih =>
      obtain ⟨k₀, v₀⟩ := p
      by_cases h : k₀ = k <;> simp [assocSet, assocGet, h, ih]

theorem assocGet_set_ne (m : List (κ × α)) (k k' : κ) (v : α)
    (h : k' ≠ k) : assocGet (assocSet m k' v) k = assocGet m k := by
  induction m with
  | nil => simp [assocSet, assocGet, h]
  | cons p rest ih =>
      obtain ⟨k₀, v₀⟩ := p
      by_cases h₀ : k₀ = k'
      · subst h₀
        simp [assocSet, assocGet, h]
      · simp [assocSet, assocGet, h₀, ih]

theorem assocGet_delete_ne (m : List (κ × α)) (k k' : κ)
    (h : k' ≠ k) : assocGet (assocDelete m k') k = assocGet m k := by
  induction m with
  | nil => simp [assocDelete]
  | cons p rest ih =>
      obtain ⟨k₀, v₀⟩ := p
      by_cases h₀ : k₀ = k'
      · subst h₀
        simp [assocDelete, assocGet, h]
      · simp [assocDelete, assocGet, h₀, ih]

theorem assocGet_eq_none_of_not_mem_keys (m : List (κ × α)) (k : κ)
    (h : k ∉ m.map Prod.fst) : assocGet m k = none := by
  induction m with
  | nil => simp [assocGet]
  | cons p rest ih =>
      obtain ⟨k₀, v₀⟩ := p
      rw [List.map_cons, List.mem_cons] at h
      push_neg at h
      rw [assocGet]
      rw [if_neg (fun hh => h.1 hh.symm)]
      exact ih h.2

theorem mem_keys_of_assocGet_isSome (m : List (κ × α)) (k : κ)
    (h : (assocGet m k).isSome) : k ∈ m.map Prod.fst := by
  by_contra hc
  rw [assocGet_eq_none_of_not_mem_keys m k hc] at h
  simp at h

theorem assocGet_delete_self (m : List (κ × α)) (k : κ)
    (hnd : (m.map Prod.fst).Nodup) : assocGet (assocDelete m k) k = none := by
  induction m with
  | nil => simp [assocDelete, assocGet]
  | cons p rest ih =>
      obtain ⟨k₀, v₀⟩ := p
      rw [List.map_cons, List.nodup_cons] at hnd
      by_cases h₀ : k₀ = k
      · subst h₀
        rw [assocDelete, if_pos rfl]
        exact assocGet_eq_none_of_not_mem_keys rest k₀ hnd.1
      · rw [assocDelete, if_neg h₀, assocGet, if_neg h₀]
        exact ih hnd.2

theorem mem_keys_assocSet (m : List (κ × α)) (k x : κ) (v : α) :
    x ∈ (assocSet m k v).map Prod.fst ↔ (x ∈ m.map Prod.fst ∨ x = k) := by
  induction m with
  | nil => simp [assocSet]
  | cons p rest ih =>
      obtain ⟨k₀, v₀⟩ := p
      by_cases h₀ : k₀ = k
      · subst h₀
        simp [assocSet]
        tauto
      · simp [assocSet, h₀, ih]
        tauto

theorem assocSet_keys_nodup (m : List (κ × α)) (k : κ) (v : α)
    (hnd : (m.map Prod.fst).Nodup) : ((assocSet m k v).map Prod.fst).Nodup := by
  induction m with
  | nil => simp [assocSet]
  | cons p rest ih =>
      obtain ⟨k₀, v₀⟩ := p
      rw [List.map_cons, List.nodup_cons] at hnd
      by_cases h₀ : k₀ = k
      · subst h₀
        rw [assocSet, if_pos rfl, List.map_cons, List.nodup_cons]
        exact hnd
      · rw [assocSet, if_neg h₀, List.map_cons, List.nodup_cons]
        constructor
        · rw [mem_keys_assocSet]
          push_neg
          exact ⟨hnd.1, h₀⟩
        · exact ih hnd.2

theorem assocDelete_keys_sublist (m : List (κ × α)) (k : κ) :
    List.Sublist ((assocDelete m k).map Prod.fst) (m.map Prod.fst) := by
  induction m with
  | nil => simp [assocDelete]
  | cons p rest ih =>
      obtain ⟨k₀, v₀⟩ := p
      by_cases h₀ : k₀ = k
      · rw [assocDelete, if_pos h₀, List.map_cons]
        exact List.sublist_cons_self _ _
      · rw [assocDelete, if_neg h₀, List.map_cons, List.map_cons]
        exact ih.cons₂ _

theorem assocDelete_keys_nodup (m : List (κ × α)) (k : κ)
    (hnd : (m.map Prod.fst).Nodup) : ((assocDelete m k).map Prod.fst).Nodup :=
  hnd.sublist (assocDelete_keys_sublist m k)

/-! ## Chunk-decomposition lemmas for `buildStreamRecord` -/

theorem chunksOf_flatten (data : List Nat) : (chunksOf data).flatten = data := by
  induction data using chunksOf.induct with
  | case1 d hd => simp at hd; simp [chunksOf, hd]
  | case2 d hd ih =>
      rw [chunksOf, dif_neg hd]
      simp [ih]

theorem chunksOf_bounds (data : List Nat) :
    ∀ c ∈ chunksOf data, 0 < c.length ∧ c.length ≤ 65535 := by
  induction data using chunksOf.induct with
  | case1 d hd => simp [chunksOf, hd]
  | case2 d hd ih =>
      rw [chunksOf, dif_neg hd]
      intro c hc
      rcases List.mem_cons.mp hc with h | h
      · subst h
        constructor
        · simp [List.length_take]
          omega
        · simp [List.length_take]
      · exact ih c h

theorem buildStreamRecord_eq_chunks (ty rid : Nat) (data : List Nat) :
    buildStreamRecord ty rid data =
      ((chunksOf data).map (fun c =>
        buildHeader ty rid c.length ((8 - c.length % 8) % 8) ++ c ++
          List.replicate ((8 - c.length % 8) % 8) 0)).flatten := by
  induction data using chunksOf.induct with
  | case1 d hd => rw [chunksOf, dif_pos hd, buildStreamRecord, dif_pos hd]; simp
  | case2 d hd ih =>
      rw [chunksOf, dif_neg hd, buildStreamRecord, dif_neg hd]
      simp [ih]

/-! ## Claim C2 (FastCGI response envelope), C9, C10 -/

theorem preEnd_socketOut (r : FCGIResponse) (d : Option Chunk) :
    (r.preEnd d).socketOut = r.socketOut := by
  cases d with
  | none => by_cases h : r.headersSent <;> simp [FCGIResponse.preEnd, h]
  | some c => by_cases h : r.headersSent <;> simp [FCGIResponse.preEnd, FCGIResponse.write, h]

theorem ite_buildStreamRecord (ty rid : Nat) (l : List Nat) :
    (if l.length > 0 then buildStreamRecord ty rid l else []) = buildStreamRecord ty rid l := by
  by_cases h : l.length > 0
  · simp [h]
  · simp at h
    rw [if_neg (by simp [h]), buildStreamRecord, dif_pos (by simp [h])]

/-- C2: for every FastCGI response, a first call to `end` writes to the socket
the buffered status/header/body bytes framed as zero or more `STDOUT` records
of content length at most 65,535 with `(8 - len % 8) % 8` zero padding,
followed by one empty `STDOUT` record, followed by a single `END_REQUEST`
record with app-status 0 and protocol-status `REQUEST_COMPLETE` (0). -/
theorem fcgi_end_envelope (r : FCGIResponse) (d : Option Chunk) (h : r.finished = false) :
    ∃ chunks : List (List Nat),
      chunks.flatten = (r.preEnd d).buffer.flatten ∧
      (∀ c ∈ chunks, 0 < c.length ∧ c.length ≤ 65535) ∧
      (r.endR d).socketOut =
        r.socketOut ++
          ((chunks.map (fun c =>
            buildHeader 6 r.requestId c.length ((8 - c.length % 8) % 8) ++ c ++
              List.replicate ((8 - c.length % 8) % 8) 0)).flatten ++
            (buildHeader 6 r.requestId 0 0 ++
              (buildHeader 3 r.requestId 8 0 ++ [0, 0, 0, 0, 0, 0, 0, 0]))) ∧
      (r.endR d).finished = true ∧
      buildEndRequest r.requestId 0 0 = buildHeader 3 r.requestId 8 0 ++ [0, 0, 0, 0, 0, 0, 0, 0] := by
  refine ⟨chunksOf ((r.preEnd d).buffer.flatten), chunksOf_flatten _, chunksOf_bounds _, ?_, ?_, rfl⟩
  · rw [FCGIResponse.endR, if_neg (by simp [h])]
    simp only [ite_buildStreamRecord, preEnd_socketOut, ← buildStreamRecord_eq_chunks]
    have : buildEndRequest r.requestId 0 0 = buildHeader 3 r.requestId 8 0 ++ [0, 0, 0, 0, 0, 0, 0, 0] := rfl
    rw [this]
    simp
  · rw [FCGIResponse.endR, if_neg (by simp [h])]

/-- Witness for C2 at a concrete response and final chunk. -/
theorem fcgi_end_envelope_witness :
    ∃ chunks : List (List Nat),
      chunks.flatten = ((FCGIResponse.new 5).preEnd (some (.str "ok"))).buffer.flatten ∧
      (∀ c ∈ chunks, 0 < c.length ∧ c.length ≤ 65535) ∧
      ((FCGIResponse.new 5).endR (some (.str "ok"))).socketOut =
        (FCGIResponse.new 5).socketOut ++
          ((chunks.map (fun c =>
            buildHeader 6 (FCGIResponse.new 5).requestId c.length ((8 - c.length % 8) % 8) ++ c ++
              List.replicate ((8 - c.length % 8) % 8) 0)).flatten ++
            (buildHeader 6 (FCGIResponse.new 5).requestId 0 0 ++
              (buildHeader 3 (FCGIResponse.new 5).requestId 8 0 ++ [0, 0, 0, 0, 0, 0, 0, 0]))) ∧
      ((FCGIResponse.new 5).endR (some (.str "ok"))).finished = true ∧
      buildEndRequest (FCGIResponse.new 5).requestId 0 0 =
        buildHeader 3 (FCGIResponse.new 5).requestId 8 0 ++ [0, 0, 0, 0, 0, 0, 0, 0] :=
  fcgi_end_envelope (FCGIResponse.new 5) (some (.str "ok")) rfl

/-- C9: the FastCGI response performs no socket I/O before `end`: `write`
leaves the socket bytes unchanged and only appends the serialized header
block (first call) and the chunk to the in-memory buffer, and a second call
to `end` is a no-op, so all response bytes reach the socket only inside the
first `end`. -/
theorem fcgi_write_no_socket_io :
    (∀ (r : FCGIResponse) (c : Chunk),
      (FCGIResponse.write c r).socketOut = r.socketOut ∧
      (FCGIResponse.write c r).buffer =
        r.buffer ++ (if r.headersSent then [] else [utf8Bytes (fcgiHeaderBlock r)]) ++ [c.bytes]) ∧
    (∀ (r : FCGIResponse) (d : Option Chunk), r.finished = true → FCGIResponse.endR d r = r) := by
  constructor
  · intro r c
    by_cases h : r.headersSent <;> simp [FCGIResponse.write, h]
  · intro r d h
    simp [FCGIResponse.endR, h]

/-- Witness for C9: a write on a finished concrete response leaves the socket
bytes unchanged, and a repeated `end` is the identity. -/
theorem fcgi_write_no_socket_io_witness :
    (FCGIResponse.write (.str "x") ((FCGIResponse.new 1).endR none)).socketOut =
      ((FCGIResponse.new 1).endR none).socketOut ∧
    FCGIResponse.endR none ((FCGIResponse.new 1).endR none) = (FCGIResponse.new 1).endR none :=
  ⟨(fcgi_write_no_socket_io.1 ((FCGIResponse.new 1).endR none) (.str "x")).1,
   fcgi_write_no_socket_io.2 ((FCGIResponse.new 1).endR none) none rfl⟩

/-- C10: both response constructors preset `Content-Type` to
`text/html; charset=utf-8`, that value is truthy, `send`'s if-unset fallback
branches reduce to a plain `end` whenever `Content-Type` is set, and a fresh
response serializes a header block containing the `Content-Type` line. -/
theorem default_content_type_invariant :
    Response.new.headers = [("Content-Type", HVal.str "text/html; charset=utf-8")] ∧
    (∀ rid : Nat, (FCGIResponse.new rid).headers =
      [("Content-Type", HVal.str "text/html; charset=utf-8")]) ∧
    ctFalsy Response.new.headers = false ∧
    (∀ (r : Response) (s : String), ctFalsy r.headers = false →
      Response.send (.str s) r = Response.endR (some (.str s)) r) ∧
    (∀ (r : Response) (b : List Nat), ctFalsy r.headers = false →
      Response.send (.buf b) r = Response.endR (some (.buf b)) r) ∧
    Response.new.writeHeaders.out =
      utf8Bytes "Status: 200 OK\r\nContent-Type: text/html; charset=utf-8\r\n\r\n" := by
  refine ⟨rfl, fun rid => rfl, by decide, ?_, ?_, by decide⟩
  · intro r s h
    simp [Response.send, h]
  · intro r b h
    simp [Response.send, h]

/-- Witness for C10: on the freshly constructed response, `send` of a string
and of a buffer behave as a plain `end`. -/
theorem default_content_type_invariant_witness :
    Response.send (.str "hello") Response.new = Response.endR (some (.str "hello")) Response.new ∧
    Response.send (.buf [1, 2]) Response.new = Response.endR (some (.buf [1, 2])) Response.new :=
  ⟨default_content_type_invariant.2.2.2.1 Response.new "hello" (by decide),
   default_content_type_invariant.2.2.2.2.1 Response.new [1, 2] (by decide)⟩

/-! ## Claims C3, C4, C5, C6, C7 -/

/-- C4 counterexample: a connection holding a pending request with id 1
(begun, partial stdin) processes `ABORT_REQUEST` for id 1.  The entry is
removed and no "request" event is surfaced, but `out = []`: no bytes at all,
in particular no 16-byte `END_REQUEST` record, are written to the socket,
contradicting the claimed `END_REQUEST` reply. -/
theorem abort_no_end_request_counterexample :
    processRecords {} initConnState
        [⟨1, 1, [0, 1, 0]⟩, ⟨5, 1, [104, 105]⟩, ⟨2, 1, []⟩] =
      .ok { requests := [], out := [], events := [] } ∧
    (buildEndRequest 1 0 0).length = 16 := by
  constructor
  · decide
  · decide

/-- C4 amended: processing `ABORT_REQUEST` for id N only removes the pending
entry from the request map; the socket output and the emitted events are
unchanged, so no `END_REQUEST` record is written and no "request" event is
surfaced. -/
theorem abort_request_drops_pending_only (opts : ServerOptions) (s : ConnState) (id : Nat)
    (content : List Nat) :
    processRecord opts s ⟨2, id, content⟩ =
      .ok { s with requests := assocDelete s.requests id } := rfl

/-- C5 counterexample: a `BEGIN_REQUEST` with role 2 (`AUTHORIZER`, not the
responder role 1) followed by empty `PARAMS` and `STDIN` records.  The
request is dispatched to the application (`events = [1]`) and nothing is
written to the socket (`out = []`), so no `END_REQUEST` with protocol-status
`UNKNOWN_ROLE` is emitted and the handler is not skipped. -/
theorem nonresponder_role_dispatch_counterexample :
    processRecords {} initConnState [⟨1, 1, [0, 2, 0]⟩, ⟨4, 1, []⟩, ⟨5, 1, []⟩] =
      .ok { requests := [], out := [], events := [1] } := by decide

theorem buildRequest_empty (id role : Nat) (kc : Bool) :
    buildRequest ⟨id, role, kc, [], true, [], true, [], false⟩ =
      .ok ⟨[("method", "GET")], [], [], [], "http://localhost/", "/", "GET", [], .null⟩ := rfl

/-- C5 amended: `BEGIN_REQUEST` records the role without examining it: for
every role encoding the pending entry is created with that role, and once
both streams are terminated the request is dispatched to the application
regardless of the role, with no bytes written to the socket. -/
theorem begin_request_role_ignored (opts : ServerOptions) (id b₀ b₁ flags : Nat) :
    processRecord opts initConnState ⟨1, id, [b₀, b₁, flags]⟩ =
      .ok { requests := [(id, FCGIRequest.new id (b₀ * 256 + b₁) (flags % 2 == 1))],
            out := [], events := [] } ∧
    processRecords opts initConnState [⟨1, id, [b₀, b₁, flags]⟩, ⟨4, id, []⟩, ⟨5, id, []⟩] =
      .ok { requests := [], out := [], events := [id] } := by
  constructor
  · simp [processRecord, readUInt16BE, readUInt8, initConnState, assocSet,
      Except.instMonad, Except.bind]
  · simp [processRecords, processRecord, readUInt16BE, readUInt8, initConnState, assocSet,
      assocGet, FCGIRequest.addParams, FCGIRequest.addStdin, tryHandleRequest,
      FCGIRequest.isReady, FCGIRequest.new, assocDelete, Except.instMonad, Except.bind,
      Except.map, Except.pure, buildRequest_empty]

/-- C3 counterexample: an 8-byte header with version byte 0 (≠ 1) followed by
a 3-byte `BEGIN_REQUEST` body.  `parseHeader` succeeds rather than failing,
and the connection loop processes the record as a normal record, creating the
pending entry for id 1; no error is raised and the connection is not
dropped. -/
theorem version_zero_processed_counterexample :
    parseHeader [0, 1, 0, 1, 0, 3, 0, 0] =
      some { version := 0, type := 1, requestId := 1, contentLength := 3,
             paddingLength := 0, reserved := 0 } ∧
    feedRecords {} initConnState ([0, 1, 0, 1, 0, 3, 0, 0] ++ [0, 1, 0]) =
      .ok ({ requests := [(1, FCGIRequest.new 1 1 false)], out := [], events := [] }, []) := by
  constructor
  · decide
  · simp [feedRecords, parseHeader, processRecord, readUInt16BE, readUInt8, assocSet,
      initConnState, FCGIRequest.new]
    rfl

/-- C3 amended: the record parser performs no version check: any buffer of at
least 8 bytes decodes to a header carrying whatever version byte was sent,
and the connection loop consumes a fully-buffered record and hands it to
`_processRecord` identically for every version byte; no `MALFORMED_RECORD`
failure or connection drop exists. -/
theorem parse_header_accepts_any_version :
    (∀ (b₀ b₁ b₂ b₃ b₄ b₅ b₆ b₇ : Nat) (rest : List Nat),
      parseHeader (b₀ :: b₁ :: b₂ :: b₃ :: b₄ :: b₅ :: b₆ :: b₇ :: rest) =
        some { version := b₀, type := b₁, requestId := b₂ * 256 + b₃,
               contentLength := b₄ * 256 + b₅, paddingLength := b₆, reserved := b₇ }) ∧
    (∀ (opts : ServerOptions) (s : ConnState) (version type id₁ id₀ : Nat) (content : List Nat),
      content.length < 65536 →
      feedRecords opts s
          (version :: type :: id₁ :: id₀ :: content.length / 256 :: content.length % 256 ::
            0 :: 0 :: content) =
        (processRecord opts s ⟨type, id₁ * 256 + id₀, content⟩).map fun s' => (s', [])) := by
  constructor
  · intro b₀ b₁ b₂ b₃ b₄ b₅ b₆ b₇ rest
    simp [parseHeader]
  · intro opts s version ty id₁ id₀ content hlen
    have hfeed : ∀ s' : ConnState, feedRecords opts s' [] = .ok (s', []) := by
      intro s'
      rw [feedRecords]
      simp
    rw [feedRecords]
    rw [dif_neg (by simp)]
    have hph : parseHeader (version :: ty :: id₁ :: id₀ :: content.length / 256 ::
        content.length % 256 :: 0 :: 0 :: content) =
        some { version := version, type := ty, requestId := id₁ * 256 + id₀,
               contentLength := content.length, paddingLength := 0, reserved := 0 } := by
      simp [parseHeader]
      omega
    rw [hph]
    simp only []
    rw [if_neg (by simp; omega)]
    have hdrop8 : (version :: ty :: id₁ :: id₀ :: content.length / 256 ::
        content.length % 256 :: 0 :: 0 :: content).drop 8 = content := rfl
    have hdropAll : (version :: ty :: id₁ :: id₀ :: content.length / 256 ::
        content.length % 256 :: 0 :: 0 :: content).drop (8 + content.length + 0) = [] := by
      have h88 : 8 + content.length + 0 = 8 + content.length := by omega
      rw [h88, ← List.drop_drop, hdrop8, List.drop_length]
    rw [hdropAll, hdrop8, List.take_length]
    cases hp : processRecord opts s ⟨ty, id₁ * 256 + id₀, content⟩ with
    | error e => simp [Except.bind, Except.map]
    | ok s' => simp [Except.bind, Except.map, hfeed]

/-- Witness for C3's amended theorem at a concrete version byte 9 and a
concrete 3-byte record body. -/
theorem parse_header_accepts_any_version_witness :
    parseHeader [9, 1, 0, 1, 0, 3, 0, 0] =
      some { version := 9, type := 1, requestId := 0 * 256 + 1, contentLength := 0 * 256 + 3,
             paddingLength := 0, reserved := 0 } ∧
    feedRecords {} initConnState
        (9 :: 1 :: 0 :: 1 :: ([0, 1, 0] : List Nat).length / 256 ::
          ([0, 1, 0] : List Nat).length % 256 :: 0 :: 0 :: [0, 1, 0]) =
      (processRecord {} initConnState ⟨1, 0 * 256 + 1, [0, 1, 0]⟩).map fun s' => (s', []) :=
  ⟨parse_header_accepts_any_version.1 9 1 0 1 0 3 0 0 [],
   parse_header_accepts_any_version.2 {} initConnState 9 1 0 1 [0, 1, 0] (by decide)⟩

/-- C6 counterexample: on a fresh FastCGI response, `json` leaves no
`Content-Length` header (while it does set the `Content-Type`), contradicting
the claim that both variants set `Content-Length` to the body's byte
length. -/
theorem fcgi_json_no_content_length_counterexample :
    assocGet (FCGIResponse.json (Json.str "hi") (FCGIResponse.new 1)).headers "Content-Length" =
      none ∧
    assocGet (FCGIResponse.json (Json.str "hi") (FCGIResponse.new 1)).headers "Content-Type" =
      some (HVal.str "application/json; charset=utf-8") := by
  constructor
  · decide
  · decide

/-- C6 amended: the CGI `Response.json` sets `Content-Type` to
`application/json; charset=utf-8`, sets `Content-Length` to the byte length
of the JSON serialization, and ends the response with that serialization as
body; the FastCGI `FCGIResponse.json` sets only the `Content-Type` and ends
with the serialization as body, leaving `Content-Length` exactly as it was
(in particular unset on a fresh response). -/
theorem json_content_length_divergence :
    (∀ (r : Response) (v : Json), r.headersSent = false → r.finished = false →
      ∃ r', Response.json v r = .ok r' ∧
        assocGet r'.headers "Content-Type" = some (.str "application/json; charset=utf-8") ∧
        assocGet r'.headers "Content-Length" = some (.num (utf8Bytes (Json.stringify v)).length) ∧
        r'.finished = true ∧
        r'.out = r.out ++ utf8Bytes (cgiHeaderBlock { r with headers := r'.headers }) ++
          utf8Bytes (Json.stringify v)) ∧
    (∀ (r : FCGIResponse) (v : Json),
      (FCGIResponse.json v r).headers =
        assocSet r.headers "Content-Type" (HVal.str "application/json; charset=utf-8") ∧
      assocGet (FCGIResponse.json v r).headers "Content-Length" =
        assocGet r.headers "Content-Length" ∧
      FCGIResponse.json v r =
        FCGIResponse.endR (some (.str (Json.stringify v))) (FCGIResponse.type "json" r)) := by
  constructor
  · intro r v h1 h2
    refine ⟨{ statusCode := r.statusCode
              headers := assocSet (assocSet r.headers "Content-Type"
                  (HVal.str "application/json; charset=utf-8")) "Content-Length"
                  (HVal.num (utf8Bytes (Json.stringify v)).length)
              headersSent := true
              finished := true
              cookies := r.cookies
              out := r.out ++ utf8Bytes (cgiHeaderBlock { r with
                  headers := assocSet (assocSet r.headers "Content-Type"
                    (HVal.str "application/json; charset=utf-8")) "Content-Length"
                    (HVal.num (utf8Bytes (Json.stringify v)).length) }) ++
                utf8Bytes (Json.stringify v) }, ?_, ?_, ?_, rfl, rfl⟩
    · simp [Response.json, Response.type, Response.set, Response.endR, Response.write,
        Response.writeHeaders, cgiContentTypeFor, h1, h2, Except.bind, Except.instMonad,
        Chunk.bytes]
    · rw [assocGet_set_ne _ _ _ _ (by decide), assocGet_set_self]
    · rw [assocGet_set_self]
  · intro r v
    have hh : (FCGIResponse.endR (some (.str (Json.stringify v)))
        (FCGIResponse.type "json" r)).headers = (FCGIResponse.type "json" r).headers := by
      by_cases hf : (FCGIResponse.type "json" r).finished
      · simp [FCGIResponse.endR, hf]
      · by_cases hs : (FCGIResponse.type "json" r).headersSent <;>
          simp [FCGIResponse.endR, FCGIResponse.preEnd, FCGIResponse.write, hf, hs]
    refine ⟨?_, ?_, rfl⟩
    · rw [FCGIResponse.json, hh]
      simp [FCGIResponse.type, FCGIResponse.set, fcgiContentTypeFor]
    · rw [FCGIResponse.json, hh]
      simp [FCGIResponse.type, FCGIResponse.set, fcgiContentTypeFor]
      rw [assocGet_set_ne]
      decide

/-- Witness for C6's amended theorem on fresh responses and the value
`{"message":"hi"}`. -/
theorem json_content_length_divergence_witness :
    (∃ r', Response.json (Json.obj [("message", Json.str "hi")]) Response.new = .ok r' ∧
      assocGet r'.headers "Content-Type" = some (.str "application/json; charset=utf-8") ∧
      assocGet r'.headers "Content-Length" =
        some (.num (utf8Bytes (Json.stringify (Json.obj [("message", Json.str "hi")]))).length) ∧
      r'.finished = true ∧
      r'.out = Response.new.out ++
        utf8Bytes (cgiHeaderBlock { Response.new with headers := r'.headers }) ++
        utf8Bytes (Json.stringify (Json.obj [("message", Json.str "hi")]))) ∧
    (FCGIResponse.json (Json.obj [("message", Json.str "hi")]) (FCGIResponse.new 1)).headers =
      assocSet (FCGIResponse.new 1).headers "Content-Type"
        (HVal.str "application/json; charset=utf-8") :=
  ⟨json_content_length_divergence.1 Response.new (Json.obj [("message", Json.str "hi")]) rfl rfl,
   (json_content_length_divergence.2 (FCGIResponse.new 1)
     (Json.obj [("message", Json.str "hi")])).1⟩

/-- C7 counterexample: after `end` has completed on a FastCGI response, a
further `write` completes normally — it appends the chunk to the in-memory
buffer and raises nothing (the source method has no finished-check and no
throw), contradicting the claimed `ALREADY_FINISHED` failure.  The socket
bytes are unchanged. -/
theorem fcgi_write_after_end_counterexample :
    (FCGIResponse.write (.str "late") ((FCGIResponse.new 1).endR none)).buffer =
      ((FCGIResponse.new 1).endR none).buffer ++ [utf8Bytes "late"] ∧
    (FCGIResponse.write (.str "late") ((FCGIResponse.new 1).endR none)).socketOut =
      ((FCGIResponse.new 1).endR none).socketOut := by
  constructor
  · rfl
  · rfl

/-- C7 amended: after `end`, a `write` on the CGI variant fails with the
"Cannot write after response finished" error; on the FastCGI variant it
completes normally, appending to the in-memory buffer while leaving the
socket bytes unchanged, and a subsequent `end` is a no-op so the extra bytes
never reach the socket. -/
theorem write_after_end_divergence :
    (∀ (r : Response) (c : Chunk), r.finished = true →
      Response.write c r = .error "Cannot write after response finished") ∧
    (∀ (r : FCGIResponse) (c : Chunk), r.finished = true →
      (FCGIResponse.write c r).socketOut = r.socketOut ∧
      (FCGIResponse.write c r).finished = true ∧
      FCGIResponse.endR none (FCGIResponse.write c r) = FCGIResponse.write c r) := by
  constructor
  · intro r c h
    simp [Response.write, h]
  · intro r c h
    have hso : (FCGIResponse.write c r).socketOut = r.socketOut := by
      by_cases hs : r.headersSent <;> simp [FCGIResponse.write, hs]
    have hw : (FCGIResponse.write c r).finished = true := by
      by_cases hs : r.headersSent <;> simp [FCGIResponse.write, hs, h]
    exact ⟨hso, hw, by simp [FCGIResponse.endR, hw]⟩

/-- Witness for C7's amended theorem: a finished CGI response rejects a
write, and a finished concrete FastCGI response accepts one without touching
the socket. -/
theorem write_after_end_divergence_witness :
    Response.write (.str "x") { Response.new with finished := true } =
      .error "Cannot write after response finished" ∧
    (FCGIResponse.write (.str "x") ((FCGIResponse.new 1).endR none)).socketOut =
      ((FCGIResponse.new 1).endR none).socketOut :=
  ⟨write_after_end_divergence.1 { Response.new with finished := true } (.str "x") rfl,
   (write_after_end_divergence.2 ((FCGIResponse.new 1).endR none) (.str "x") rfl).1⟩

/-! ## Claim C8 (query-string aggregation) -/

theorem except_ok_bind {ε α β : Type} (a : α) (f : α → Except ε β) :
    ((Except.ok a : Except ε α) >>= f) = f a := rfl

theorem except_bind_ok {ε α β : Type} (a : α) (f : α → Except ε β) :
    (Except.ok a : Except ε α).bind f = f a := rfl

theorem except_map_bind_ok {ε α β γ : Type} {x : Except ε α} {st : β} {g : β → Except ε γ}
    {s₂ : γ} (h : ((x.map fun _ => st).bind g) = .ok s₂) : g st = .ok s₂ := by
  cases x with
  | error e => simp [Except.map, Except.bind] at h
  | ok a => simpa [Except.map, Except.bind] using h

theorem qfold_arr (rk name : String)
    (hname : (if endsWithBrackets rk then dropBrackets rk else rk) = name) :
    ∀ (vs : List String) (acc : List QElem),
      (vs.map fun v => (rk, v)).foldlM qStep [(name, QVal.arr acc)] =
        .ok [(name, QVal.arr (acc ++ vs.map QElem.str))] := by
  intro vs
  induction vs with
  | nil =>
      intro acc
      simp [pure, Except.pure]
  | cons v rest ih =>
      intro acc
      simp only [List.map_cons, List.foldlM_cons]
      have hstep : qStep [(name, QVal.arr acc)] (rk, v) =
          .ok [(name, QVal.arr (acc ++ [QElem.str v]))] := by
        by_cases hb : endsWithBrackets rk
        · rw [if_pos hb] at hname
          simp [qStep, hb, hname, assocGet, assocSet]
        · rw [if_neg hb] at hname
          subst hname
          simp [qStep, hb, assocGet, assocSet]
      rw [hstep, except_ok_bind]
      simpa using ih (acc ++ [QElem.str v])

/-- C8 corrected: for keys that are not `Object.prototype` member names the
aggregation works as described: a key ending in `[]` has the suffix stripped
and its values collected in order into a list, a plain key that repeats has
its first value promoted to a list and later values appended in order, a
single plain key records its value directly, and an empty query string
decodes to the empty mapping (an absent `QUERY_STRING` is passed in as the
empty string by `parseCGIEnv`).  For a first-seen key that names an
`Object.prototype` member the aggregation behaves differently (see the
counterexample). -/
theorem query_string_aggregation :
    parseQueryString "" = .ok [] ∧
    parseQueryString "a[]=1&a[]=2&a[]=3" =
      .ok [("a", QVal.arr [QElem.str "1", QElem.str "2", QElem.str "3"])] ∧
    parseQueryString "tag=a&tag=b" = .ok [("tag", QVal.arr [QElem.str "a", QElem.str "b"])] ∧
    (∀ (rk v : String) (vs : List String), endsWithBrackets rk = true →
      dropBrackets rk ∉ protoProps →
      aggPairs ((v :: vs).map fun x => (rk, x)) =
        .ok [(dropBrackets rk, QVal.arr ((v :: vs).map QElem.str))]) ∧
    (∀ (k v : String), endsWithBrackets k = false → k ∉ protoProps →
      aggPairs [(k, v)] = .ok [(k, QVal.str v)]) ∧
    (∀ (k v₁ v₂ : String) (vs : List String), endsWithBrackets k = false → k ∉ protoProps →
      aggPairs ((v₁ :: v₂ :: vs).map fun x => (k, x)) =
        .ok [(k, QVal.arr ((v₁ :: v₂ :: vs).map QElem.str))]) := by
  refine ⟨by decide, by decide, by decide, ?_, ?_, ?_⟩
  · intro rk v vs hb hp
    simp only [aggPairs, List.map_cons, List.foldlM_cons]
    have h1 : qStep [] (rk, v) = .ok [(dropBrackets rk, QVal.arr [QElem.str v])] := by
      simp [qStep, hb, hp, assocGet, assocSet]
    rw [h1, except_ok_bind]
    simpa using qfold_arr rk (dropBrackets rk) (by simp [hb]) vs [QElem.str v]
  · intro k v hk hp
    have hk1 : ¬ k = "__proto__" := fun he => hp (by rw [he]; decide)
    simp only [aggPairs, List.foldlM_cons, List.foldlM_nil]
    have h1 : qStep [] (k, v) = .ok [(k, QVal.str v)] := by
      simp [qStep, hk, hk1, hp, assocGet, assocSet]
    rw [h1, except_ok_bind]
    rfl
  · intro k v₁ v₂ vs hk hp
    have hk1 : ¬ k = "__proto__" := fun he => hp (by rw [he]; decide)
    simp only [aggPairs, List.map_cons, List.foldlM_cons]
    have h1 : qStep [] (k, v₁) = .ok [(k, QVal.str v₁)] := by
      simp [qStep, hk, hk1, hp, assocGet, assocSet]
    have h2 : qStep [(k, QVal.str v₁)] (k, v₂) =
        .ok [(k, QVal.arr [QElem.str v₁, QElem.str v₂])] := by
      simp [qStep, hk, assocGet, assocSet]
    rw [h1, except_ok_bind, h2, except_ok_bind]
    simpa using qfold_arr k k (by simp [hk]) vs [QElem.str v₁, QElem.str v₂]

/-- Witness for C8's universally quantified aggregation rules at concrete
keys and values. -/
theorem query_string_aggregation_witness :
    aggPairs (("1" :: ["2"]).map fun x => ("a[]", x)) =
      .ok [(dropBrackets "a[]", QVal.arr (("1" :: ["2"]).map QElem.str))] ∧
    aggPairs [("tag", "a")] = .ok [("tag", QVal.str "a")] ∧
    aggPairs (("a" :: "b" :: ([] : List String)).map fun x => ("tag", x)) =
      .ok [("tag", QVal.arr (("a" :: "b" :: ([] : List String)).map QElem.str))] :=
  ⟨query_string_aggregation.2.2.2.1 "a[]" "1" ["2"] (by decide) (by decide),
   query_string_aggregation.2.2.2.2.1 "tag" "a" (by decide) (by decide),
   query_string_aggregation.2.2.2.2.2 "tag" "a" "b" [] (by decide) (by decide)⟩

/-- C8 counterexample: the accumulator is a plain object that inherits
`Object.prototype`, so for a first-seen key that names a prototype member
the `result[key] !== undefined` test is already true: `toString=x` takes
the duplicate-key branch and promotes the inherited `toString` function
into the array instead of recording `"x"` directly, and `toString[]=x`
finds the inherited member truthy and calls `.push` on a function,
throwing a `TypeError` instead of collecting `["x"]`. -/
theorem query_string_proto_key_counterexample :
    parseQueryString "toString=x" =
      .ok [("toString", QVal.arr [QElem.protoMember "toString", QElem.str "x"])] ∧
    parseQueryString "toString[]=x" = .error JsErr.typeError := by
  decide

/-! ## Claim C1 (dispatch discipline of the request multiplexer) -/

theorem tryHandleRequest_none (s : ConnState) (rid : Nat)
    (h : assocGet s.requests rid = none) : tryHandleRequest s rid = .ok s := by
  simp [tryHandleRequest, h]

theorem tryHandleRequest_not_ready (s : ConnState) (rid : Nat) (req : FCGIRequest)
    (h : assocGet s.requests rid = some req) (hr : req.isReady = false) :
    tryHandleRequest s rid = .ok s := by
  simp [tryHandleRequest, h, hr]

theorem tryHandleRequest_ready (s : ConnState) (rid : Nat) (req : FCGIRequest)
    (h : assocGet s.requests rid = some req) (hr : req.isReady = true) :
    tryHandleRequest s rid = (buildRequest req).map fun _ =>
      { s with requests := assocDelete s.requests rid, events := s.events ++ [rid] } := by
  simp [tryHandleRequest, h, hr]

theorem hasBegin_cons (id : Nat) (r : FCGIRecord) (rest : List FCGIRecord) :
    hasBegin id (r :: rest) ↔ ((r.type = 1 ∧ r.requestId = id) ∨ hasBegin id rest) := by
  simp [hasBegin]

theorem hasParamsEnd_cons (id : Nat) (r : FCGIRecord) (rest : List FCGIRecord) :
    hasParamsEnd id (r :: rest) ↔
      ((r.type = 4 ∧ r.requestId = id ∧ r.content = []) ∨ hasParamsEnd id rest) := by
  simp [hasParamsEnd]

theorem hasStdinEnd_cons (id : Nat) (r : FCGIRecord) (rest : List FCGIRecord) :
    hasStdinEnd id (r :: rest) ↔
      ((r.type = 5 ∧ r.requestId = id ∧ r.content = []) ∨ hasStdinEnd id rest) := by
  simp [hasStdinEnd]

theorem not_mem_events_of_get_some (begun : List Nat) (s : ConnState) (hinv : ConnInv begun s)
    (id : Nat) (req : FCGIRequest) (h : assocGet s.requests id = some req) : id ∉ s.events := by
  intro hmem
  have := hinv.2.2.1 id hmem
  rw [this] at h
  exact Option.noConfusion h

theorem processRecords_cons (opts : ServerOptions) (s : ConnState) (r : FCGIRecord)
    (rest : List FCGIRecord) :
    processRecords opts s (r :: rest) =
      (processRecord opts s r).bind fun s₁ => processRecords opts s₁ rest := rfl

theorem processRecords_spec (recs : List FCGIRecord) (opts : ServerOptions) :
    ∀ (begun : List Nat) (s : ConnState), WFStream begun recs → ConnInv begun s →
    ∀ s', processRecords opts s recs = .ok s' →
      s'.events.Nodup ∧
      (∀ id, id ∈ s'.events → assocGet s'.requests id = none) ∧
      (∀ id, id ∈ s'.events ↔ (id ∈ s.events ∨
        (((assocGet s.requests id).isSome ∨ hasBegin id recs) ∧
         (pDone s id ∨ hasParamsEnd id recs) ∧
         (sDone s id ∨ hasStdinEnd id recs)))) := by
  induction recs with
  | nil =>
      intro begun s hwf hinv s' hrun
      have hss : s = s' := Except.ok.inj hrun
      subst hss
      refine ⟨hinv.1, hinv.2.2.1, ?_⟩
      intro id
      constructor
      · intro h
        exact Or.inl h
      · rintro (h | ⟨h1, h2, h3⟩)
        · exact h
        · exfalso
          simp [hasParamsEnd] at h2
          simp [hasStdinEnd] at h3
          obtain ⟨r1, hg1, hp⟩ := h2
          obtain ⟨r2, hg2, hs⟩ := h3
          rw [hg1] at hg2
          injection hg2 with he
          subst he
          exact hinv.2.2.2.2 id r1 hg1 ⟨hp, hs⟩
  | cons r rest ih =>
      intro begun s hwf hinv s' hrun
      obtain ⟨hev_nd, hkeys_nd, hdisp_none, hbegun_iff, hflags_ok⟩ := hinv
      by_cases ht1 : r.type = 1
      · -- BEGIN_REQUEST
        rw [WFStream, if_pos ht1] at hwf
        obtain ⟨hfresh, hlen, hwfrest⟩ := hwf
        have hget_none : assocGet s.requests r.requestId = none := by
          cases hq : assocGet s.requests r.requestId with
          | none => rfl
          | some q =>
              exact absurd ((hbegun_iff r.requestId).mpr (Or.inr (by simp [hq]))) hfresh
        have hnotev : r.requestId ∉ s.events := fun hmem =>
          hfresh ((hbegun_iff r.requestId).mpr (Or.inl hmem))
        have hrole : readUInt16BE r.content 0 =
            .ok (r.content.getD 0 0 * 256 + r.content.getD 1 0) := by
          rw [readUInt16BE, if_pos (by omega)]
        obtain ⟨flags, hflags⟩ : ∃ f, readUInt8 r.content 2 = .ok f := by
          rw [readUInt8, dif_pos (by omega)]
          exact ⟨_, rfl⟩
        have hstep : processRecord opts s r = .ok { s with requests := assocSet s.requests r.requestId (FCGIRequest.new r.requestId (r.content.getD 0 0 * 256 + r.content.getD 1 0) (flags % 2 == 1)) } := by
          rw [processRecord, if_pos ht1]
          rw [show (do
            let role ← readUInt16BE r.content 0
            let flags ← readUInt8 r.content 2
            let req := FCGIRequest.new r.requestId role (flags % 2 == 1)
            Except.ok { s with requests := assocSet s.requests r.requestId req } :
              Except JsErr ConnState) =
            (readUInt16BE r.content 0).bind fun role =>
              (readUInt8 r.content 2).bind fun flags =>
                Except.ok { s with requests := assocSet s.requests r.requestId (FCGIRequest.new r.requestId role (flags % 2 == 1)) } from rfl]
          rw [hrole, hflags]
          rfl
        have hinv₁ : ConnInv (r.requestId :: begun) { s with requests := assocSet s.requests r.requestId (FCGIRequest.new r.requestId (r.content.getD 0 0 * 256 + r.content.getD 1 0) (flags % 2 == 1)) } := by
          refine ⟨hev_nd, assocSet_keys_nodup _ _ _ hkeys_nd, ?_, ?_, ?_⟩
          · intro id hid
            have hne : r.requestId ≠ id := fun he => hnotev (he ▸ hid)
            rw [assocGet_set_ne _ _ _ _ hne]
            exact hdisp_none id hid
          · intro id
            by_cases hid : id = r.requestId
            · subst hid
              simp [assocGet_set_self]
            · have hne : r.requestId ≠ id := fun he => hid he.symm
              rw [assocGet_set_ne _ _ _ _ hne]
              simpa [hid] using hbegun_iff id
          · intro id q hq
            by_cases hid : id = r.requestId
            · subst hid
              rw [assocGet_set_self] at hq
              injection hq with hq
              subst hq
              simp [FCGIRequest.new]
            · have hne : r.requestId ≠ id := fun he => hid he.symm
              rw [assocGet_set_ne _ _ _ _ hne] at hq
              exact hflags_ok id q hq
        rw [processRecords_cons, hstep, except_bind_ok] at hrun
        obtain ⟨hnd, hdn, hiff⟩ := ih (r.requestId :: begun) _ hwfrest hinv₁ s' hrun
        refine ⟨hnd, hdn, ?_⟩
        · intro id
          rw [hiff id]
          by_cases hid : id = r.requestId
          · subst hid
            simp only [hasBegin_cons, hasParamsEnd_cons, hasStdinEnd_cons]
            simp [pDone, sDone, assocGet_set_self, hget_none, FCGIRequest.new, ht1]
          · have hne : r.requestId ≠ id := fun he => hid he.symm
            have hg : assocGet (assocSet s.requests r.requestId (FCGIRequest.new r.requestId (r.content.getD 0 0 * 256 + r.content.getD 1 0) (flags % 2 == 1))) id = assocGet s.requests id := assocGet_set_ne _ _ _ _ hne
            simp only [hasBegin_cons, hasParamsEnd_cons, hasStdinEnd_cons]
            simp at hg
            simp [pDone, sDone, hg, hne]
      · by_cases ht4 : r.type = 4
        · -- PARAMS record
          rw [WFStream, if_neg ht1, if_pos ht4] at hwf
          obtain ⟨hmem, hparse, hwfrest⟩ := hwf
          cases hq : assocGet s.requests r.requestId with
          | none =>
              -- the id was already dispatched; the record is ignored
              have hstep : processRecord opts s r = .ok s := by
                rw [processRecord, if_neg ht1, if_pos ht4]
                simp only [hq]
                rw [tryHandleRequest_none s r.requestId hq]
              have hrid_ev : r.requestId ∈ s.events := by
                rcases (hbegun_iff r.requestId).mp hmem with h | h
                · exact h
                · rw [hq] at h
                  simp at h
              rw [processRecords_cons, hstep, except_bind_ok] at hrun
              obtain ⟨hnd, hdn, hiff⟩ :=
                ih begun s hwfrest ⟨hev_nd, hkeys_nd, hdisp_none, hbegun_iff, hflags_ok⟩ s' hrun
              refine ⟨hnd, hdn, ?_⟩
              intro id
              rw [hiff id]
              by_cases hid : id = r.requestId
              · subst hid
                simp [hrid_ev]
              · have hne : r.requestId ≠ id := fun he => hid he.symm
                simp only [hasBegin_cons, hasParamsEnd_cons, hasStdinEnd_cons]
                simp [hne, ht4]
          | some req =>
              have hreqev : r.requestId ∉ s.events := fun hmem' => by
                rw [hdisp_none _ hmem'] at hq
                exact Option.noConfusion hq
              by_cases hc : r.content = []
              · -- zero-length PARAMS: close the params stream
                have haddp : req.addParams r.content = .ok { req with paramsComplete := true } := by
                  rw [FCGIRequest.addParams, if_pos (by simp [hc])]
                by_cases hsc : req.stdinComplete = true
                · -- stdin already closed: dispatch (when building the request succeeds)
                  have hstep : processRecord opts s r = (buildRequest { req with paramsComplete := true }).map fun _ => { s with requests := assocDelete (assocSet s.requests r.requestId { req with paramsComplete := true }) r.requestId, events := s.events ++ [r.requestId] } := by
                    rw [processRecord, if_neg ht1, if_pos ht4]
                    simp only [hq]
                    rw [haddp, except_ok_bind]
                    rw [tryHandleRequest_ready _ _ { req with paramsComplete := true } (assocGet_set_self _ _ _) (by simp [FCGIRequest.isReady, hsc])]
                  have hinv₁ : ConnInv begun { s with requests := assocDelete (assocSet s.requests r.requestId { req with paramsComplete := true }) r.requestId, events := s.events ++ [r.requestId] } := by
                    have hknd : ((assocSet s.requests r.requestId { req with paramsComplete := true }).map Prod.fst).Nodup := assocSet_keys_nodup _ _ _ hkeys_nd
                    refine ⟨?_, assocDelete_keys_nodup _ _ hknd, ?_, ?_, ?_⟩
                    · simp [List.nodup_append, hev_nd, hreqev]
                    · intro id hid
                      rcases List.mem_append.mp hid with hid | hid
                      · have hne : r.requestId ≠ id := fun he => hreqev (he ▸ hid)
                        rw [assocGet_delete_ne _ _ _ hne, assocGet_set_ne _ _ _ _ hne]
                        exact hdisp_none id hid
                      · simp at hid
                        subst hid
                        exact assocGet_delete_self _ _ hknd
                    · intro id
                      by_cases hid : id = r.requestId
                      · subst hid
                        simp [hmem]
                      · have hne : r.requestId ≠ id := fun he => hid he.symm
                        rw [assocGet_delete_ne _ _ _ hne, assocGet_set_ne _ _ _ _ hne]
                        simpa [hid] using hbegun_iff id
                    · intro id q hqq
                      by_cases hid : id = r.requestId
                      · subst hid
                        rw [assocGet_delete_self _ _ hknd] at hqq
                        exact Option.noConfusion hqq
                      · have hne : r.requestId ≠ id := fun he => hid he.symm
                        rw [assocGet_delete_ne _ _ _ hne, assocGet_set_ne _ _ _ _ hne] at hqq
                        exact hflags_ok id q hqq
                  rw [processRecords_cons, hstep] at hrun
                  have hrun₂ := except_map_bind_ok hrun
                  obtain ⟨hnd, hdn, hiff⟩ := ih begun _ hwfrest hinv₁ s' hrun₂
                  refine ⟨hnd, hdn, ?_⟩
                  intro id
                  rw [hiff id]
                  by_cases hid : id = r.requestId
                  · subst hid
                    simp only [hasBegin_cons, hasParamsEnd_cons, hasStdinEnd_cons]
                    simp [pDone, sDone, hq, hsc, ht4, hc, hreqev]
                  · have hne : r.requestId ≠ id := fun he => hid he.symm
                    have hg : assocGet (assocDelete (assocSet s.requests r.requestId { req with paramsComplete := true }) r.requestId) id = assocGet s.requests id := by
                      rw [assocGet_delete_ne _ _ _ hne, assocGet_set_ne _ _ _ _ hne]
                    simp only [hasBegin_cons, hasParamsEnd_cons, hasStdinEnd_cons]
                    simp [pDone, sDone, hg, hne, ht4, hid]
                · -- stdin still open: flag only
                  have hstep : processRecord opts s r = .ok { s with requests := assocSet s.requests r.requestId { req with paramsComplete := true } } := by
                    rw [processRecord, if_neg ht1, if_pos ht4]
                    simp only [hq]
                    rw [haddp, except_ok_bind]
                    rw [tryHandleRequest_not_ready _ _ { req with paramsComplete := true } (assocGet_set_self _ _ _) (by simp [FCGIRequest.isReady, hsc])]
                  have hinv₁ : ConnInv begun { s with requests := assocSet s.requests r.requestId { req with paramsComplete := true } } := by
                    refine ⟨hev_nd, assocSet_keys_nodup _ _ _ hkeys_nd, ?_, ?_, ?_⟩
                    · intro id hid
                      have hne : r.requestId ≠ id := fun he => hreqev (he ▸ hid)
                      rw [assocGet_set_ne _ _ _ _ hne]
                      exact hdisp_none id hid
                    · intro id
                      by_cases hid : id = r.requestId
                      · subst hid
                        simp [hmem, assocGet_set_self]
                      · have hne : r.requestId ≠ id := fun he => hid he.symm
                        rw [assocGet_set_ne _ _ _ _ hne]
                        simpa [hid] using hbegun_iff id
                    · intro id q hqq
                      by_cases hid : id = r.requestId
                      · subst hid
                        rw [assocGet_set_self] at hqq
                        injection hqq with hqq
                        subst hqq
                        simp [hsc]
                      · have hne : r.requestId ≠ id := fun he => hid he.symm
                        rw [assocGet_set_ne _ _ _ _ hne] at hqq
                        exact hflags_ok id q hqq
                  rw [processRecords_cons, hstep, except_bind_ok] at hrun
                  obtain ⟨hnd, hdn, hiff⟩ := ih begun _ hwfrest hinv₁ s' hrun
                  refine ⟨hnd, hdn, ?_⟩
                  intro id
                  rw [hiff id]
                  by_cases hid : id = r.requestId
                  · subst hid
                    simp only [hasBegin_cons, hasParamsEnd_cons, hasStdinEnd_cons]
                    simp [pDone, sDone, hq, hsc, ht4, hc, assocGet_set_self]
                  · have hne : r.requestId ≠ id := fun he => hid he.symm
                    have hg : assocGet (assocSet s.requests r.requestId { req with paramsComplete := true }) id = assocGet s.requests id := assocGet_set_ne _ _ _ _ hne
                    simp only [hasBegin_cons, hasParamsEnd_cons, hasStdinEnd_cons]
                    simp [pDone, sDone, hg, hne, ht4, hid]
              · -- non-empty PARAMS: merge pairs, flags unchanged
                obtain ⟨ps, hps⟩ : ∃ ps, parseNameValuePairs r.content = .ok ps := by
                  rcases hparse with h | h
                  · exact absurd h hc
                  · exact h
                have haddp : req.addParams r.content = .ok { req with params := ps.foldl (fun acc p => jsRecordSet acc p.1 p.2) req.params } := by
                  rw [FCGIRequest.addParams, if_neg (by simpa using hc), hps]
                  rfl
                have hnr : ({ req with params := ps.foldl (fun acc p => jsRecordSet acc p.1 p.2) req.params } : FCGIRequest).isReady = false := by
                  have := hflags_ok _ _ hq
                  cases hpc : req.paramsComplete <;> cases hsc2 : req.stdinComplete <;>
                    simp_all [FCGIRequest.isReady]
                have hstep : processRecord opts s r = .ok { s with requests := assocSet s.requests r.requestId { req with params := ps.foldl (fun acc p => jsRecordSet acc p.1 p.2) req.params } } := by
                  rw [processRecord, if_neg ht1, if_pos ht4]
                  simp only [hq]
                  rw [haddp, except_ok_bind]
                  rw [tryHandleRequest_not_ready _ _ _ (assocGet_set_self _ _ _) hnr]
                have hinv₁ : ConnInv begun { s with requests := assocSet s.requests r.requestId { req with params := ps.foldl (fun acc p => jsRecordSet acc p.1 p.2) req.params } } := by
                  refine ⟨hev_nd, assocSet_keys_nodup _ _ _ hkeys_nd, ?_, ?_, ?_⟩
                  · intro id hid
                    have hne : r.requestId ≠ id := fun he => hreqev (he ▸ hid)
                    rw [assocGet_set_ne _ _ _ _ hne]
                    exact hdisp_none id hid
                  · intro id
                    by_cases hid : id = r.requestId
                    · subst hid
                      simp [hmem, assocGet_set_self]
                    · have hne : r.requestId ≠ id := fun he => hid he.symm
                      rw [assocGet_set_ne _ _ _ _ hne]
                      simpa [hid] using hbegun_iff id
                  · intro id q hqq
                    by_cases hid : id = r.requestId
                    · subst hid
                      rw [assocGet_set_self] at hqq
                      injection hqq with hqq
                      subst hqq
                      simpa using hflags_ok _ _ hq
                    · have hne : r.requestId ≠ id := fun he => hid he.symm
                      rw [assocGet_set_ne _ _ _ _ hne] at hqq
                      exact hflags_ok id q hqq
                rw [processRecords_cons, hstep, except_bind_ok] at hrun
                obtain ⟨hnd, hdn, hiff⟩ := ih begun _ hwfrest hinv₁ s' hrun
                refine ⟨hnd, hdn, ?_⟩
                intro id
                rw [hiff id]
                by_cases hid : id = r.requestId
                · subst hid
                  simp only [hasBegin_cons, hasParamsEnd_cons, hasStdinEnd_cons]
                  simp [pDone, sDone, hq, ht4, hc, assocGet_set_self]
                · have hne : r.requestId ≠ id := fun he => hid he.symm
                  have hg : assocGet (assocSet s.requests r.requestId { req with params := ps.foldl (fun acc p => jsRecordSet acc p.1 p.2) req.params }) id = assocGet s.requests id := assocGet_set_ne _ _ _ _ hne
                  simp only [hasBegin_cons, hasParamsEnd_cons, hasStdinEnd_cons]
                  simp [pDone, sDone, hg, hne, ht4, hid]
        · by_cases ht5 : r.type = 5
          · -- STDIN record
            rw [WFStream, if_neg ht1, if_neg ht4, if_pos ht5] at hwf
            obtain ⟨hmem, hwfrest⟩ := hwf
            cases hq : assocGet s.requests r.requestId with
            | none =>
                have hstep : processRecord opts s r = .ok s := by
                  rw [processRecord, if_neg ht1, if_neg ht4, if_pos ht5]
                  simp only [hq]
                  rw [tryHandleRequest_none s r.requestId hq]
                have hrid_ev : r.requestId ∈ s.events := by
                  rcases (hbegun_iff r.requestId).mp hmem with h | h
                  · exact h
                  · rw [hq] at h
                    simp at h
                rw [processRecords_cons, hstep, except_bind_ok] at hrun
                obtain ⟨hnd, hdn, hiff⟩ :=
                  ih begun s hwfrest ⟨hev_nd, hkeys_nd, hdisp_none, hbegun_iff, hflags_ok⟩ s' hrun
                refine ⟨hnd, hdn, ?_⟩
                intro id
                rw [hiff id]
                by_cases hid : id = r.requestId
                · subst hid
                  simp [hrid_ev]
                · have hne : r.requestId ≠ id := fun he => hid he.symm
                  simp only [hasBegin_cons, hasParamsEnd_cons, hasStdinEnd_cons]
                  simp [hne, ht5]
            | some req =>
                have hreqev : r.requestId ∉ s.events := fun hmem' => by
                  rw [hdisp_none _ hmem'] at hq
                  exact Option.noConfusion hq
                by_cases hc : r.content = []
                · -- zero-length STDIN: close the stdin stream
                  have hadds : req.addStdin r.content = { req with stdinComplete := true } := by
                    rw [FCGIRequest.addStdin, if_pos (by simp [hc])]
                  by_cases hpc : req.paramsComplete = true
                  · -- params already closed: dispatch
                    have hstep : processRecord opts s r = (buildRequest { req with stdinComplete := true }).map fun _ => { s with requests := assocDelete (assocSet s.requests r.requestId { req with stdinComplete := true }) r.requestId, events := s.events ++ [r.requestId] } := by
                      rw [processRecord, if_neg ht1, if_neg ht4, if_pos ht5]
                      simp only [hq]
                      rw [hadds]
                      rw [tryHandleRequest_ready _ _ { req with stdinComplete := true } (assocGet_set_self _ _ _) (by simp [FCGIRequest.isReady, hpc])]
                    have hinv₁ : ConnInv begun { s with requests := assocDelete (assocSet s.requests r.requestId { req with stdinComplete := true }) r.requestId, events := s.events ++ [r.requestId] } := by
                      have hknd : ((assocSet s.requests r.requestId { req with stdinComplete := true }).map Prod.fst).Nodup := assocSet_keys_nodup _ _ _ hkeys_nd
                      refine ⟨?_, assocDelete_keys_nodup _ _ hknd, ?_, ?_, ?_⟩
                      · simp [List.nodup_append, hev_nd, hreqev]
                      · intro id hid
                        rcases List.mem_append.mp hid with hid | hid
                        · have hne : r.requestId ≠ id := fun he => hreqev (he ▸ hid)
                          rw [assocGet_delete_ne _ _ _ hne, assocGet_set_ne _ _ _ _ hne]
                          exact hdisp_none id hid
                        · simp at hid
                          subst hid
                          exact assocGet_delete_self _ _ hknd
                      · intro id
                        by_cases hid : id = r.requestId
                        · subst hid
                          simp [hmem]
                        · have hne : r.requestId ≠ id := fun he => hid he.symm
                          rw [assocGet_delete_ne _ _ _ hne, assocGet_set_ne _ _ _ _ hne]
                          simpa [hid] using hbegun_iff id
                      · intro id q hqq
                        by_cases hid : id = r.requestId
                        · subst hid
                          rw [assocGet_delete_self _ _ hknd] at hqq
                          exact Option.noConfusion hqq
                        · have hne : r.requestId ≠ id := fun he => hid he.symm
                          rw [assocGet_delete_ne _ _ _ hne, assocGet_set_ne _ _ _ _ hne] at hqq
                          exact hflags_ok id q hqq
                    rw [processRecords_cons, hstep] at hrun
                    have hrun₂ := except_map_bind_ok hrun
                    obtain ⟨hnd, hdn, hiff⟩ := ih begun _ hwfrest hinv₁ s' hrun₂
                    refine ⟨hnd, hdn, ?_⟩
                    intro id
                    rw [hiff id]
                    by_cases hid : id = r.requestId
                    · subst hid
                      simp only [hasBegin_cons, hasParamsEnd_cons, hasStdinEnd_cons]
                      simp [pDone, sDone, hq, hpc, ht5, hc, hreqev]
                    · have hne : r.requestId ≠ id := fun he => hid he.symm
                      have hg : assocGet (assocDelete (assocSet s.requests r.requestId { req with stdinComplete := true }) r.requestId) id = assocGet s.requests id := by
                        rw [assocGet_delete_ne _ _ _ hne, assocGet_set_ne _ _ _ _ hne]
                      simp only [hasBegin_cons, hasParamsEnd_cons, hasStdinEnd_cons]
                      simp [pDone, sDone, hg, hne, ht5, hid]
                  · -- params still open: flag only
                    have hstep : processRecord opts s r = .ok { s with requests := assocSet s.requests r.requestId { req with stdinComplete := true } } := by
                      rw [processRecord, if_neg ht1, if_neg ht4, if_pos ht5]
                      simp only [hq]
                      rw [hadds]
                      rw [tryHandleRequest_not_ready _ _ { req with stdinComplete := true } (assocGet_set_self _ _ _) (by simp [FCGIRequest.isReady, hpc])]
                    have hinv₁ : ConnInv begun { s with requests := assocSet s.requests r.requestId { req with stdinComplete := true } } := by
                      refine ⟨hev_nd, assocSet_keys_nodup _ _ _ hkeys_nd, ?_, ?_, ?_⟩
                      · intro id hid
                        have hne : r.requestId ≠ id := fun he => hreqev (he ▸ hid)
                        rw [assocGet_set_ne _ _ _ _ hne]
                        exact hdisp_none id hid
                      · intro id
                        by_cases hid : id = r.requestId
                        · subst hid
                          simp [hmem, assocGet_set_self]
                        · have hne : r.requestId ≠ id := fun he => hid he.symm
                          rw [assocGet_set_ne _ _ _ _ hne]
                          simpa [hid] using hbegun_iff id
                      · intro id q hqq
                        by_cases hid : id = r.requestId
                        · subst hid
                          rw [assocGet_set_self] at hqq
                          injection hqq with hqq
                          subst hqq
                          simp [hpc]
                        · have hne : r.requestId ≠ id := fun he => hid he.symm
                          rw [assocGet_set_ne _ _ _ _ hne] at hqq
                          exact hflags_ok id q hqq
                    rw [processRecords_cons, hstep, except_bind_ok] at hrun
                    obtain ⟨hnd, hdn, hiff⟩ := ih begun _ hwfrest hinv₁ s' hrun
                    refine ⟨hnd, hdn, ?_⟩
                    intro id
                    rw [hiff id]
                    by_cases hid : id = r.requestId
                    · subst hid
                      simp only [hasBegin_cons, hasParamsEnd_cons, hasStdinEnd_cons]
                      simp [pDone, sDone, hq, hpc, ht5, hc, assocGet_set_self]
                    · have hne : r.requestId ≠ id := fun he => hid he.symm
                      have hg : assocGet (assocSet s.requests r.requestId { req with stdinComplete := true }) id = assocGet s.requests id := assocGet_set_ne _ _ _ _ hne
                      simp only [hasBegin_cons, hasParamsEnd_cons, hasStdinEnd_cons]
                      simp [pDone, sDone, hg, hne, ht5, hid]
                · -- non-empty STDIN: append bytes, flags unchanged
                  have hadds : req.addStdin r.content = { req with stdin := req.stdin ++ [r.content] } := by
                    rw [FCGIRequest.addStdin, if_neg (by simpa using hc)]
                  have hnr : ({ req with stdin := req.stdin ++ [r.content] } : FCGIRequest).isReady = false := by
                    have := hflags_ok _ _ hq
                    cases hpc : req.paramsComplete <;> cases hsc2 : req.stdinComplete <;>
                      simp_all [FCGIRequest.isReady]
                  have hstep : processRecord opts s r = .ok { s with requests := assocSet s.requests r.requestId { req with stdin := req.stdin ++ [r.content] } } := by
                    rw [processRecord, if_neg ht1, if_neg ht4, if_pos ht5]
                    simp only [hq]
                    rw [hadds]
                    rw [tryHandleRequest_not_ready _ _ _ (assocGet_set_self _ _ _) hnr]
                  have hinv₁ : ConnInv begun { s with requests := assocSet s.requests r.requestId { req with stdin := req.stdin ++ [r.content] } } := by
                    refine ⟨hev_nd, assocSet_keys_nodup _ _ _ hkeys_nd, ?_, ?_, ?_⟩
                    · intro id hid
                      have hne : r.requestId ≠ id := fun he => hreqev (he ▸ hid)
                      rw [assocGet_set_ne _ _ _ _ hne]
                      exact hdisp_none id hid
                    · intro id
                      by_cases hid : id = r.requestId
                      · subst hid
                        simp [hmem, assocGet_set_self]
                      · have hne : r.requestId ≠ id := fun he => hid he.symm
                        rw [assocGet_set_ne _ _ _ _ hne]
                        simpa [hid] using hbegun_iff id
                    · intro id q hqq
                      by_cases hid : id = r.requestId
                      · subst hid
                        rw [assocGet_set_self] at hqq
                        injection hqq with hqq
                        subst hqq
                        simpa using hflags_ok _ _ hq
                      · have hne : r.requestId ≠ id := fun he => hid he.symm
                        rw [assocGet_set_ne _ _ _ _ hne] at hqq
                        exact hflags_ok id q hqq
                  rw [processRecords_cons, hstep, except_bind_ok] at hrun
                  obtain ⟨hnd, hdn, hiff⟩ := ih begun _ hwfrest hinv₁ s' hrun
                  refine ⟨hnd, hdn, ?_⟩
                  intro id
                  rw [hiff id]
                  by_cases hid : id = r.requestId
                  · subst hid
                    simp only [hasBegin_cons, hasParamsEnd_cons, hasStdinEnd_cons]
                    simp [pDone, sDone, hq, ht5, hc, assocGet_set_self]
                  · have hne : r.requestId ≠ id := fun he => hid he.symm
                    have hg : assocGet (assocSet s.requests r.requestId { req with stdin := req.stdin ++ [r.content] }) id = assocGet s.requests id := assocGet_set_ne _ _ _ _ hne
                    simp only [hasBegin_cons, hasParamsEnd_cons, hasStdinEnd_cons]
                    simp [pDone, sDone, hg, hne, ht5, hid]
          · -- no other record type is well-formed
            rw [WFStream, if_neg ht1, if_neg ht4, if_neg ht5] at hwf
            exact absurd hwf not_false

theorem parseNVP_query :
    parseNameValuePairs [12, 9, 81, 85, 69, 82, 89, 95, 83, 84, 82, 73, 78, 71,
      97, 61, 49, 38, 97, 91, 93, 61, 50] = .ok [("QUERY_STRING", "a=1&a[]=2")] := by
  decide

/-- C1 corrected: for a well-formed inbound record stream whose processing
completes without an exception, the "request" event is emitted at most once
per id (`events` has no duplicates), exactly for those ids whose `PARAMS`
stream and `STDIN` stream were both terminated by a zero-length record, and
every dispatched id has been removed from the connection's request map.
Processing can, however, throw before the event is emitted, because the
request object is derived first (see the counterexample). -/
theorem request_dispatch_exactly_once (opts : ServerOptions) (recs : List FCGIRecord)
    (hwf : WFStream [] recs) (s' : ConnState)
    (hok : processRecords opts initConnState recs = .ok s') :
    s'.events.Nodup ∧
    (∀ id, id ∈ s'.events → assocGet s'.requests id = none) ∧
    (∀ id, id ∈ s'.events ↔ (hasBegin id recs ∧ hasParamsEnd id recs ∧ hasStdinEnd id recs)) := by
  have hinv : ConnInv [] initConnState := by
    refine ⟨List.nodup_nil, List.nodup_nil, ?_, ?_, ?_⟩ <;> simp [initConnState, assocGet]
  obtain ⟨hnd, hdn, hiff⟩ := processRecords_spec recs opts [] initConnState hwf hinv s' hok
  refine ⟨hnd, hdn, ?_⟩
  intro id
  rw [hiff id]
  simp [initConnState, assocGet, pDone, sDone]

/-- Witness for C1 on a concrete multiplexed stream: request 7 has both
streams terminated and is dispatched, request 9 only its params stream. -/
theorem request_dispatch_exactly_once_witness :
    (⟨[(9, ⟨9, 1, true, [], true, [], false, [], false⟩)], [], [7]⟩ : ConnState).events.Nodup ∧
    (∀ id, id ∈ (⟨[(9, ⟨9, 1, true, [], true, [], false, [], false⟩)], [], [7]⟩ : ConnState).events →
      assocGet (⟨[(9, ⟨9, 1, true, [], true, [], false, [], false⟩)], [], [7]⟩ : ConnState).requests id = none) ∧
    (∀ id, id ∈ (⟨[(9, ⟨9, 1, true, [], true, [], false, [], false⟩)], [], [7]⟩ : ConnState).events ↔
      (hasBegin id [⟨1, 7, [0, 1, 0]⟩, ⟨4, 7, []⟩, ⟨5, 7, []⟩, ⟨1, 9, [0, 1, 1]⟩, ⟨4, 9, []⟩] ∧
       hasParamsEnd id [⟨1, 7, [0, 1, 0]⟩, ⟨4, 7, []⟩, ⟨5, 7, []⟩, ⟨1, 9, [0, 1, 1]⟩, ⟨4, 9, []⟩] ∧
       hasStdinEnd id [⟨1, 7, [0, 1, 0]⟩, ⟨4, 7, []⟩, ⟨5, 7, []⟩, ⟨1, 9, [0, 1, 1]⟩, ⟨4, 9, []⟩])) :=
  request_dispatch_exactly_once {}
    [⟨1, 7, [0, 1, 0]⟩, ⟨4, 7, []⟩, ⟨5, 7, []⟩, ⟨1, 9, [0, 1, 1]⟩, ⟨4, 9, []⟩]
    (by simp [WFStream])
    ⟨[(9, ⟨9, 1, true, [], true, [], false, [], false⟩)], [], [7]⟩ (by decide)

/-- C1 counterexample: a well-formed stream for request 1 with both streams
terminated — its parameters carry `QUERY_STRING = "a=1&a[]=2"` — makes the
dispatch path throw: `_tryHandleRequest` derives the request object with
`parseCGIEnv` before emitting the event, `parseQueryString` hits a truthy
non-array own value under `a` when aggregating `a[]` and throws a
`TypeError`, so the fully terminated request is never dispatched and no
"request" event is observed. -/
theorem dispatch_derivation_throws_counterexample :
    WFStream [] crashStream ∧
    hasBegin 1 crashStream ∧ hasParamsEnd 1 crashStream ∧ hasStdinEnd 1 crashStream ∧
    processRecords {} initConnState crashStream = .error JsErr.typeError := by
  have e1 : processRecord {} initConnState ⟨1, 1, [0, 1, 0]⟩ =
      .ok ⟨[(1, ⟨1, 1, false, [], false, [], false, [], false⟩)], [], []⟩ := by decide
  have e2 : processRecord {} ⟨[(1, ⟨1, 1, false, [], false, [], false, [], false⟩)], [], []⟩
      ⟨4, 1, [12, 9, 81, 85, 69, 82, 89, 95, 83, 84, 82, 73, 78, 71,
        97, 61, 49, 38, 97, 91, 93, 61, 50]⟩ =
      .ok ⟨[(1, ⟨1, 1, false, [("QUERY_STRING", "a=1&a[]=2")], false, [], false, [], false⟩)],
        [], []⟩ := by decide
  have e3 : processRecord {}
      ⟨[(1, ⟨1, 1, false, [("QUERY_STRING", "a=1&a[]=2")], false, [], false, [], false⟩)], [], []⟩
      ⟨4, 1, []⟩ =
      .ok ⟨[(1, ⟨1, 1, false, [("QUERY_STRING", "a=1&a[]=2")], true, [], false, [], false⟩)],
        [], []⟩ := by decide
  have e4 : processRecord {}
      ⟨[(1, ⟨1, 1, false, [("QUERY_STRING", "a=1&a[]=2")], true, [], false, [], false⟩)], [], []⟩
      ⟨5, 1, []⟩ = .error JsErr.typeError := by decide
  refine ⟨?_, ?_, ?_, ?_, ?_⟩
  · simp [WFStream, crashStream]
    exact ⟨_, parseNVP_query⟩
  · exact ⟨⟨1, 1, [0, 1, 0]⟩, by simp [crashStream], rfl, rfl⟩
  · exact ⟨⟨4, 1, []⟩, by simp [crashStream], rfl, rfl, rfl⟩
  · exact ⟨⟨5, 1, []⟩, by simp [crashStream], rfl, rfl, rfl⟩
  · show processRecords {} initConnState crashStream = .error JsErr.typeError
    rw [show crashStream = [⟨1, 1, [0, 1, 0]⟩,
      ⟨4, 1, [12, 9, 81, 85, 69, 82, 89, 95, 83, 84, 82, 73, 78, 71,
        97, 61, 49, 38, 97, 91, 93, 61, 50]⟩, ⟨4, 1, []⟩, ⟨5, 1, []⟩] from rfl]
    rw [processRecords_cons, e1, except_bind_ok, processRecords_cons, e2, except_bind_ok,
      processRecords_cons, e3, except_bind_ok, processRecords_cons, e4]
    rfl
